import Mathlib

/-!
Shallow embedding of `mycroft/util/lang/parse_en.py` (English text parsers for
numbers, durations and date-times) and proofs about the claims of its
specification.

Modelling conventions:
* Python `int` and `float` values are modelled by `PyNum` (an integer or an
  exact rational).  Python floats are modelled by exact rationals; this is
  faithful for every value manipulated in the theorems below (halves, quarters,
  decimal literals), where the binary floating-point value and its `repr` agree
  with exact decimal arithmetic.
* A Python value that may be `False`/`None` instead of a number is modelled by
  `Option PyNum` (`none` = falsy sentinel).
* Python strings are Lean `String`s; scanning work is done on `List Char`.
* Python loops whose termination is not structural are given explicit fuel,
  always large enough that the fuel never runs out on the inputs appearing in
  any theorem.
* The lexicon tables imported from `common_data_en.py` / `parse_common.py` are
  not part of the source tree; they are modelled from the spec (each such
  definition carries a `Modelled from the spec:` comment).
-/

/-! ## Exact rationals (kernel-computable) -/

/-- An exact rational with a normalised representation: `den` is positive and
`gcd |num| den = 1` for values built through `QF.norm`. Models Python floats. -/
structure QF where
  num : Int
  den : Nat
deriving DecidableEq, Repr

/-- Normalising constructor: divide out the gcd. A zero denominator (which can
only come from a Python `ZeroDivisionError` path, never reached in any theorem)
is mapped to 0. -/
def QF.norm (n : Int) (d : Nat) : QF :=
  if d = 0 then ⟨0, 1⟩
  else
    let g := Nat.gcd n.natAbs d
    if g = 0 then ⟨0, 1⟩ else ⟨n / (g : Int), d / g⟩

def QF.ofInt (n : Int) : QF := ⟨n, 1⟩

def QF.add (a b : QF) : QF := QF.norm (a.num * b.den + b.num * a.den) (a.den * b.den)

def QF.mul (a b : QF) : QF := QF.norm (a.num * b.num) (a.den * b.den)

/-- Division.  Division by zero gives 0 (the source would raise
`ZeroDivisionError`; no theorem reaches such a path). -/
def QF.div (a b : QF) : QF :=
  if b.num < 0 then QF.norm (-(a.num * b.den)) (a.den * b.num.natAbs)
  else QF.norm (a.num * b.den) (a.den * b.num.natAbs)

def QF.neg (a : QF) : QF := ⟨-a.num, a.den⟩

def QF.blt (a b : QF) : Bool := a.num * b.den < b.num * a.den

def QF.ble (a b : QF) : Bool := a.num * b.den ≤ b.num * a.den

def QF.isZero (a : QF) : Bool := a.num = 0

/-! ## Python numbers: `int` or `float` -/

/-- A Python number: either an `int` or a `float` (exact-rational model). -/
inductive PyNum where
  | i : Int → PyNum
  | f : QF → PyNum
deriving DecidableEq, Repr

def PyNum.toQ : PyNum → QF
  | .i n => QF.ofInt n
  | .f q => q

/-- Python truthiness of a number (`0`, `0.0` are falsy). -/
def PyNum.truthy : PyNum → Bool
  | .i n => n ≠ 0
  | .f q => ¬ q.isZero

/-- Python `+` with int/float promotion. -/
def pyAdd : PyNum → PyNum → PyNum
  | .i a, .i b => .i (a + b)
  | a, b => .f (QF.add a.toQ b.toQ)

/-- Python `*` with int/float promotion. -/
def pyMul : PyNum → PyNum → PyNum
  | .i a, .i b => .i (a * b)
  | a, b => .f (QF.mul a.toQ b.toQ)

/-- Python `0 - x` (used for negation in the source). -/
def pyNeg : PyNum → PyNum
  | .i a => .i (-a)
  | .f q => .f q.neg

/-- Python float division (always yields a float). -/
def pyDivF (a b : PyNum) : PyNum := .f (QF.div a.toQ b.toQ)

def pyLt (a b : PyNum) : Bool := QF.blt a.toQ b.toQ

def pyLe (a b : PyNum) : Bool := QF.ble a.toQ b.toQ

/-- Truthiness of a Python variable that holds either `False`/`None` or a
number (`none` is the falsy sentinel). -/
def pvTruthy : Option PyNum → Bool
  | none => false
  | some v => v.truthy

/-! ## Character and string utilities (Python semantics) -/

/-- Python `str.isspace` characters relevant to `str.split()`. -/
def pyIsSpace (c : Char) : Bool :=
  c = ' ' ∨ c = '\t' ∨ c = '\n' ∨ c = '\r' ∨ c = '\x0b' ∨ c = '\x0c'

def charIsDigit (c : Char) : Bool := '0' ≤ c ∧ c ≤ '9'

/-- Python `str.split()` (no argument): split on whitespace runs, dropping
empty pieces. -/
def pySplitWsAux : List Char → List Char → List String
  | [], cur => if cur = [] then [] else [String.mk cur.reverse]
  | c :: cs, cur =>
    if pyIsSpace c then
      if cur = [] then pySplitWsAux cs []
      else String.mk cur.reverse :: pySplitWsAux cs []
    else pySplitWsAux cs (c :: cur)

def pySplitWs (s : String) : List String := pySplitWsAux s.toList []

/-- Python `sep.join(xs)` for a one-space separator, and `' '.join(s.split())`
style whitespace collapsing via `pySplitWs`. -/
def joinSpChars : List String → List Char
  | [] => []
  | [w] => w.toList
  | w :: ws => w.toList ++ ' ' :: joinSpChars ws

def pyJoinSp (xs : List String) : String := String.mk (joinSpChars xs)

/-- Python `str.split(sep)` for a single-character separator (used for
`word.split('/')`): keeps empty pieces. -/
def pySplitChar (sep : Char) : List Char → List Char → List String
  | [], cur => [String.mk cur.reverse]
  | c :: cs, cur =>
    if c = sep then String.mk cur.reverse :: pySplitChar sep cs []
    else pySplitChar sep cs (c :: cur)

def pySplitOn (sep : Char) (s : String) : List String := pySplitChar sep s.toList []

/-- Python `str.strip()`: remove leading and trailing whitespace. -/
def pyStrip (s : String) : String :=
  String.mk ((s.toList.dropWhile pyIsSpace).reverse.dropWhile pyIsSpace).reverse

/-- Python `str.rstrip(c)`: remove every trailing occurrence of `c`. -/
def pyRstripChar (c : Char) (s : String) : String :=
  String.mk (s.toList.reverse.dropWhile (· = c)).reverse

def pyLower (s : String) : String := String.mk (s.toList.map Char.toLower)

/-- `needle` occurs as a contiguous sublist starting at the head of `hay`. -/
def listStartsWith : List Char → List Char → Bool
  | [], _ => true
  | _ :: _, [] => false
  | n :: ns, h :: hs => n = h ∧ listStartsWith ns hs

/-- Python `needle in hay` (substring test). The empty needle is contained in
everything, as in Python. -/
def listContains (needle : List Char) : List Char → Bool
  | [] => listStartsWith needle []
  | c :: cs => listStartsWith needle (c :: cs) ∨ listContains needle cs

def pyContains (hay needle : String) : Bool := listContains needle.toList hay.toList

/-- Python `hay.replace(old, new)` for a nonempty `old`: scan left to right,
replacing non-overlapping occurrences and continuing after each match. -/
def pyReplaceAux (old new : List Char) : Nat → List Char → List Char
  | 0, cs => cs
  | _ + 1, [] => []
  | fuel + 1, c :: cs =>
    if listStartsWith old (c :: cs) then
      new ++ pyReplaceAux old new fuel ((c :: cs).drop old.length)
    else
      c :: pyReplaceAux old new fuel cs

def pyReplace (s old new : String) : String :=
  String.mk (pyReplaceAux old.toList new.toList (s.toList.length + 1) s.toList)

/-- Python `word[0].isdigit()`.  The source raises `IndexError` on the empty
string at the places this is used with a possibly-empty word (e.g. a blanked
word); we return `false` there, and no theorem depends on such a path. -/
def headIsDigit (s : String) : Bool :=
  match s.toList with
  | [] => false
  | c :: _ => charIsDigit c

/-- Python `str.isdigit()` (ASCII): nonempty and all digits. -/
def strIsDigit (s : String) : Bool :=
  s.toList ≠ [] ∧ s.toList.all charIsDigit

/-- Python `str.isdecimal()` coincides with `isdigit` on ASCII input. -/
def strIsDecimal (s : String) : Bool := strIsDigit s

def digitVal (c : Char) : Nat := c.toNat - '0'.toNat

def natOfDigits : List Char → Nat → Nat
  | [], acc => acc
  | c :: cs, acc => natOfDigits cs (acc * 10 + digitVal c)

/-- Python `int(s)` for a string of digits.  Where the source can call `int`
on a non-digit string it raises `ValueError`; we return the value of the
leading digits (no theorem depends on such a path). -/
def pyIntDigits (s : String) : Int :=
  Int.ofNat (natOfDigits (s.toList.takeWhile charIsDigit) 0)

/-- `toString` for `Int` in Python style (`-2`, `17`). -/
def pyIntStr (n : Int) : String :=
  (if n < 0 then "-" else "") ++ toString n.natAbs

/-- Left-pad a digit string with zeros to the given width. -/
def padZeros (w : Nat) (s : String) : String :=
  String.mk (List.replicate (w - s.toList.length) '0') ++ s

/-- Smallest `k ≤ fuel` with `den ∣ 10 ^ k`, if any. -/
def termExpo (den : Nat) : Nat → Nat → Option Nat
  | 0, _ => none
  | fuel + 1, k => if 10 ^ k % den = 0 then some k else termExpo den fuel (k + 1)

/-- Python `str(float)` restricted to our exact-rational float model: print the
shortest terminating decimal expansion with at least one fractional digit
(`600.0`, `2.5`, `-2.0`).  Rationals without a terminating expansion cannot be
produced by any computation appearing in a theorem below; they are printed in
`p/q` form (Python would print the binary-float repr, outside this model). -/
def pyFloatStr (q : QF) : String :=
  let sign := if q.num < 0 then "-" else ""
  let n := q.num.natAbs
  match termExpo q.den 64 0 with
  | some k0 =>
    let k := max k0 1
    let scaled := n * (10 ^ k / q.den)
    let ip := scaled / 10 ^ k
    let fp := scaled % 10 ^ k
    sign ++ toString ip ++ "." ++ padZeros k (toString fp)
  | none => sign ++ toString n ++ "/" ++ toString q.den

/-- Python `str` of a number. -/
def pyNumStr : PyNum → String
  | .i n => pyIntStr n
  | .f q => pyFloatStr q

/-! ## Python `float(s)` literal grammar -/

def takeDigits (cs : List Char) : List Char × List Char :=
  (cs.takeWhile charIsDigit, cs.dropWhile charIsDigit)

/-- Parse the body of a float literal after the optional sign:
`digits [. [digits]] | . digits`, then an optional exponent.
Returns the value as an exact rational. -/
def parseFloatBody (cs : List Char) : Option QF :=
  let (ip, r1) := takeDigits cs
  let core : Option (QF × List Char) :=
    match r1 with
    | '.' :: r2 =>
      let (fp, r3) := takeDigits r2
      if ip = [] ∧ fp = [] then none
      else some (QF.norm (Int.ofNat (natOfDigits (ip ++ fp) 0)) (10 ^ fp.length), r3)
    | _ =>
      if ip = [] then none else some (QF.ofInt (Int.ofNat (natOfDigits ip 0)), r1)
  match core with
  | none => none
  | some (v, rest) =>
    match rest with
    | [] => some v
    | e :: r4 =>
      if e = 'e' ∨ e = 'E' then
        let (sgn, r5) : (Bool × List Char) :=
          match r4 with
          | '+' :: t => (false, t)
          | '-' :: t => (true, t)
          | t => (false, t)
        let (ed, r6) := takeDigits r5
        if ed = [] ∨ r6 ≠ [] then none
        else
          let ex := natOfDigits ed 0
          some (if sgn then QF.div v (QF.ofInt (Int.ofNat (10 ^ ex)))
                else QF.mul v (QF.ofInt (Int.ofNat (10 ^ ex))))
      else none

/-- Python `float(s)` on a token (no interior whitespace in any token we see).
`inf`/`nan` forms are not representable in the exact model and are rejected;
no input in any theorem contains them. -/
def parseFloatQ (s : String) : Option QF :=
  match s.toList with
  | '+' :: t => parseFloatBody t
  | '-' :: t => (parseFloatBody t).map QF.neg
  | t => parseFloatBody t

/-- Modelled from the spec: `parse_common.is_numeric` — true iff Python
`float(s)` accepts the string. -/
def is_numeric (s : String) : Bool := (parseFloatQ s).isSome

/-- Modelled from the spec: `parse_common.look_for_fractions` — true iff the
list has exactly two all-digit components (the two sides of a `/`). -/
def look_for_fractions (xs : List String) : Bool :=
  match xs with
  | [a, b] => strIsDecimal a ∧ strIsDecimal b
  | _ => false

/-! ## Lexicon tables

`ARTICLES`, `NUM_STRING_EN`, `SHORT_SCALE_EN`, `LONG_SCALE_EN` and the ordinal
tables live in `common_data_en.py`, which is not part of the source tree; they
are modelled from the spec (word→integer maps, tens words, scale-multiplier
maps with short/long variants, ordinal tables).  `_NEGATIVES`, `_SUMS`,
`_FRACTION_MARKER`, `_DECIMAL_MARKER` and the derived plural sets are built in
`parse_en.py` itself and are transcribed from it. -/

/-- Modelled from the spec: the article set of the lexicon resource. -/
def ARTICLES : List String := ["a", "an", "the"]

/-- Source `_NEGATIVES`. -/
def NEGATIVES : List String := ["negative", "minus"]

/-- Source `_SUMS` (tens words and their digit strings). -/
def SUMS : List String :=
  ["twenty", "20", "thirty", "30", "forty", "40", "fifty", "50",
   "sixty", "60", "seventy", "70", "eighty", "80", "ninety", "90"]

/-- Modelled from the spec: `NUM_STRING_EN` inverted to word→integer
(0–20 and the tens). -/
def numWordBase : List (String × Int) :=
  [("zero", 0), ("one", 1), ("two", 2), ("three", 3), ("four", 4),
   ("five", 5), ("six", 6), ("seven", 7), ("eight", 8), ("nine", 9),
   ("ten", 10), ("eleven", 11), ("twelve", 12), ("thirteen", 13),
   ("fourteen", 14), ("fifteen", 15), ("sixteen", 16), ("seventeen", 17),
   ("eighteen", 18), ("nineteen", 19), ("twenty", 20), ("thirty", 30),
   ("forty", 40), ("fifty", 50), ("sixty", 60), ("seventy", 70),
   ("eighty", 80), ("ninety", 90)]

/-- Source `_STRING_NUM_EN`: the inverted word map, its naive `+"s"` plurals,
and the extra entries `half`/`halves` (float 0.5) and `couple` (2). -/
def STRING_NUM_EN (w : String) : Option PyNum :=
  if w = "half" ∨ w = "halves" then some (.f ⟨1, 2⟩)
  else if w = "couple" then some (.i 2)
  else
    match numWordBase.lookup w with
    | some n => some (.i n)
    | none =>
      match (numWordBase.map (fun p => (p.1 ++ "s", p.2))).lookup w with
      | some n => some (.i n)
      | none => none

/-- Modelled from the spec: `SHORT_SCALE_EN` as word→multiplier (hundred,
thousand, million are Python ints; the larger entries are Python floats). -/
def shortScaleBase : List (String × PyNum) :=
  [("hundred", .i 100), ("thousand", .i 1000), ("million", .i 1000000),
   ("billion", .f ⟨1000000000, 1⟩), ("trillion", .f ⟨1000000000000, 1⟩)]

/-- Modelled from the spec: `LONG_SCALE_EN` as word→multiplier. -/
def longScaleBase : List (String × PyNum) :=
  [("hundred", .i 100), ("thousand", .i 1000), ("million", .i 1000000),
   ("billion", .f ⟨1000000000000, 1⟩), ("trillion", .f ⟨1000000000000000000, 1⟩)]

def scaleBase (shortScale : Bool) : List (String × PyNum) :=
  if shortScale then shortScaleBase else longScaleBase

/-- Source `string_num_scale`: the scale map plus its `+"s"` plurals. -/
def stringNumScale (shortScale : Bool) (w : String) : Option PyNum :=
  match (scaleBase shortScale).lookup w with
  | some v => some v
  | none => ((scaleBase shortScale).map (fun p => (p.1 ++ "s", p.2))).lookup w

/-- Source `multiplies`: the scale names and their plurals. -/
def multiplies (shortScale : Bool) (w : String) : Bool :=
  ((scaleBase shortScale).lookup w).isSome ∨
  (((scaleBase shortScale).map (fun p => (p.1 ++ "s", p.2))).lookup w).isSome

/-- Modelled from the spec: `SHORT_ORDINAL_STRING_EN` inverted to
word→number (1–20, the tens, and the scale ordinals, the latter floats). -/
def shortOrdinalBase : List (String × PyNum) :=
  [("first", .i 1), ("second", .i 2), ("third", .i 3), ("fourth", .i 4),
   ("fifth", .i 5), ("sixth", .i 6), ("seventh", .i 7), ("eighth", .i 8),
   ("ninth", .i 9), ("tenth", .i 10), ("eleventh", .i 11), ("twelfth", .i 12),
   ("thirteenth", .i 13), ("fourteenth", .i 14), ("fifteenth", .i 15),
   ("sixteenth", .i 16), ("seventeenth", .i 17), ("eighteenth", .i 18),
   ("nineteenth", .i 19), ("twentieth", .i 20), ("thirtieth", .i 30),
   ("fortieth", .i 40), ("fiftieth", .i 50), ("sixtieth", .i 60),
   ("seventieth", .i 70), ("eightieth", .i 80), ("ninetieth", .i 90),
   ("hundredth", .f ⟨100, 1⟩), ("thousandth", .f ⟨1000, 1⟩),
   ("millionth", .f ⟨1000000, 1⟩), ("billionth", .f ⟨1000000000, 1⟩),
   ("trillionth", .f ⟨1000000000000, 1⟩)]

/-- Modelled from the spec: `LONG_ORDINAL_STRING_EN` inverted (same words,
long-scale values for the scale ordinals). -/
def longOrdinalBase : List (String × PyNum) :=
  (shortOrdinalBase.take 27) ++
  [("hundredth", .f ⟨100, 1⟩), ("thousandth", .f ⟨1000, 1⟩),
   ("millionth", .f ⟨1000000, 1⟩), ("billionth", .f ⟨1000000000000, 1⟩),
   ("trillionth", .f ⟨1000000000000000000, 1⟩)]

/-- Source `string_num_ordinal` (selected by scale). -/
def stringNumOrdinal (shortScale : Bool) (w : String) : Option PyNum :=
  if shortScale then shortOrdinalBase.lookup w else longOrdinalBase.lookup w

/-- Source `isFractional_en`: strip one trailing `s`, then look the word up in
`whole/half/halve/quarter` extended with every ordinal word of value > 2;
return the reciprocal as a float. -/
def isFractional_en (input_str : String) (shortScale : Bool) : Option PyNum :=
  let s :=
    match input_str.toList.reverse with
    | 's' :: rest => String.mk rest.reverse
    | _ => input_str
  let s := pyLower s
  let base : List (String × QF) :=
    [("whole", ⟨1, 1⟩), ("half", ⟨2, 1⟩), ("halve", ⟨2, 1⟩), ("quarter", ⟨4, 1⟩)]
  let ords := (if shortScale then shortOrdinalBase else longOrdinalBase).filterMap
    (fun p => if QF.blt ⟨2, 1⟩ p.2.toQ then some (p.1, p.2.toQ) else none)
  match (base ++ ords).lookup s with
  | some n => some (.f (QF.div ⟨1, 1⟩ n))
  | none => none

/-! ## Tokenisation and the single-number scan -/

/-- Source `_Token`: a word and its index in the whitespace-split sequence. -/
structure Token where
  word : String
  index : Nat
deriving DecidableEq, Repr

/-- Source `_tokenize`. -/
def tokenize (text : String) : List Token :=
  (pySplitWs text).enum.map (fun p => ⟨p.2, p.1⟩)

/-- The accumulation loop of `_partition_list`: emit the current split and a
singleton at each match, flush the current split at the end. -/
def partitionAux (p : Token → Bool) : List Token → List Token → List (List Token)
  | [], cur => [cur]
  | t :: ts, cur =>
    if p t then cur :: [t] :: partitionAux p ts []
    else partitionAux p ts (cur ++ [t])

/-- Source `_partition_list` followed by its `filter(len != 0)`. -/
def partitionList (p : Token → Bool) (items : List Token) : List (List Token) :=
  (partitionAux p items []).filter (fun l => l ≠ [])

/-- Whether a word is recognised as number-bearing by the scan's main guard
(the negation of the `word not in ... and not ...` test of the source). -/
def wordRecognized (ss ord : Bool) (w : String) : Bool :=
  (stringNumScale ss w).isSome ∨ (STRING_NUM_EN w).isSome ∨ SUMS.contains w ∨
  multiplies ss w ∨ (ord ∧ (stringNumOrdinal ss w).isSome) ∨ is_numeric w ∨
  (isFractional_en w ss).isSome ∨ look_for_fractions (pySplitOn '/' w)

/-- The mutable state of the source's token scan: `number_words`, `val`,
`prev_val`, `to_sum`.  `val = none` models Python `False` (and the
`prev_val = none` of an untouched `prev_val` models Python `None`). -/
structure ScanSt where
  numberWords : List Token
  val : Option PyNum
  prevVal : Option PyNum
  toSum : List PyNum
deriving Repr

/-- One iteration step plus the tail of the scan of
`_extract_number_with_text_en` (the big `for idx, token in enumerate(tokens)`
loop).  `prevWord` is the word of the previous token (`""` at the start). -/
def scanLoop (ss ord : Bool) : String → ScanSt → List Token → ScanSt
  | _, st, [] => st
  | prevWord, st, tok :: rest =>
    let word := tok.word
    if ARTICLES.contains word ∨ NEGATIVES.contains word then
      scanLoop ss ord word { st with numberWords := st.numberWords ++ [tok] } rest
    else
      let nextWord := match rest with | [] => "" | t :: _ => t.word
      if ¬ wordRecognized ss ord word then
        -- unrecognised word: break unless the run so far is only
        -- articles/negatives, in which case reset and continue
        if st.numberWords ≠ [] ∧
            ¬ (st.numberWords.all (fun t =>
                ARTICLES.contains t.word ∨ NEGATIVES.contains t.word)) then
          st
        else
          scanLoop ss ord word { st with numberWords := [] } rest
      else
        let nw :=
          if ¬ multiplies ss word ∧ ¬ multiplies ss prevWord ∧
              ¬ SUMS.contains prevWord ∧
              ¬ (ord ∧ (stringNumOrdinal ss prevWord).isSome) ∧
              ¬ NEGATIVES.contains prevWord ∧ ¬ ARTICLES.contains prevWord then
            [tok]
          else if SUMS.contains prevWord ∧ SUMS.contains word then
            [tok]
          else
            st.numberWords ++ [tok]
        -- is this word already a number?
        let val := st.val
        let val :=
          if is_numeric word then
            if strIsDigit word then some (.i (pyIntDigits word))
            else some (.f ((parseFloatQ word).getD ⟨0, 1⟩))
          else val
        -- is this word the name of a number?
        let val :=
          if (STRING_NUM_EN word).isSome then STRING_NUM_EN word
          else if (stringNumScale ss word).isSome then stringNumScale ss word
          else if ord ∧ (stringNumOrdinal ss word).isSome then stringNumOrdinal ss word
          else val
        -- ordinal continuation ("second one"); `val is 1` is an identity test
        -- against the int 1
        let val :=
          if ord ∧ (stringNumOrdinal ss prevWord).isSome ∧ val = some (.i 1) then
            st.prevVal
          else val
        -- sum-merge ("twenty two"); `prev_val` is a number whenever this fires
        let val :=
          if SUMS.contains prevWord ∧
              ((STRING_NUM_EN word).isSome ∨ (stringNumScale ss word).isSome ∨
               (ord ∧ (stringNumOrdinal ss word).isSome)) then
            match val with
            | some v =>
              if v.truthy ∧ pyLt v (.i 10) then
                some (pyAdd (st.prevVal.getD (.i 0)) v)
              else val
            | none => val
          else val
        -- multiply-merge ("two hundred"); `prev_val` defaults to 1 when falsy
        let prevVal1 :=
          if multiplies ss word ∧ ¬ pvTruthy st.prevVal then some (.i 1)
          else st.prevVal
        let val :=
          if multiplies ss word then
            some (pyMul (prevVal1.getD (.i 1)) (val.getD (.i 0)))
          else val
        -- spoken fraction fallback ("half") when `val is False`
        let val := if val = none then isFractional_en word ss else val
        -- look-ahead fraction fusion ("2 fifths")
        let val :=
          if ¬ ord then
            match isFractional_en nextWord ss with
            | some nv =>
              let base := match val with
                | some v => if v.truthy then v else .i 1
                | none => .i 1
              some (pyMul base nv)
            | none => val
          else val
        -- negation
        let val :=
          match val with
          | some v =>
            if v.truthy ∧ prevWord ≠ "" ∧ NEGATIVES.contains prevWord then
              some (pyNeg v)
            else some v
          | none => none
        -- slash-fraction fallback / long-number flush
        let st' :=
          if ¬ pvTruthy val then
            let pieces := pySplitOn '/' word
            let val :=
              if look_for_fractions pieces then
                some (pyDivF (.f ((parseFloatQ (pieces.getD 0 "")).getD ⟨0, 1⟩))
                             (.f ((parseFloatQ (pieces.getD 1 "")).getD ⟨0, 1⟩)))
              else val
            { numberWords := nw, val := val, prevVal := prevVal1, toSum := st.toSum }
          else
            if multiplies ss word ∧ ¬ multiplies ss nextWord then
              { numberWords := nw, val := some (.i 0), prevVal := some (.i 0),
                toSum := st.toSum ++ [val.getD (.i 0)] }
            else
              { numberWords := nw, val := val, prevVal := val, toSum := st.toSum }
        scanLoop ss ord word st' rest

/-! ## The recursive extraction family

`_extract_number_with_text_en`, `_extract_fraction`, `_extract_decimal` and
`extract_numbers_with_text` are mutually recursive in the source.  They are
embedded as a single function `exRun` structurally recursive on a fuel
parameter (so that the kernel can evaluate it); every recursive call decreases
the fuel, and the public entry points supply fuel that is amply sufficient for
the recursion depth on any input appearing in a theorem. -/

inductive ExCall where
  | core (tokens : List Token) (ss ord : Bool)
  | frac (tokens : List Token)
  | deci (tokens : List Token)
  | deciM (tokens : List Token) (c : String)
  | nums (text : String) (ss ord : Bool)

inductive ExRes where
  | pair (val : Option PyNum) (toks : List Token)
  | opt (r : Option (Option PyNum × List Token))
  | numsR (rs : List (PyNum × String × Nat × Nat))

def ExRes.pairOf : ExRes → Option PyNum × List Token
  | .pair v t => (v, t)
  | _ => (none, [])

def ExRes.optOf : ExRes → Option (Option PyNum × List Token)
  | .opt r => r
  | _ => none

def ExRes.numsOf : ExRes → List (PyNum × String × Nat × Nat)
  | .numsR rs => rs
  | _ => []

/-- The placeholder that `extract_numbers_with_text` substitutes for consumed
spans to keep later indices stable. -/
def placeholderWord : String := "<placeholder>"

def exRun : Nat → ExCall → ExRes
  | 0, .nums _ _ _ => .numsR []
  | 0, .deciM _ _ => .opt none
  | 0, _ => .pair none []
  | f + 1, .frac tokens =>
    -- `_extract_fraction`; the only fraction marker is "and"
    (match partitionList (fun t => t.word = "and") tokens with
     | [p0, p1, p2] =>
       let text := pyJoinSp (p0.map (·.word))
       let numbers := (exRun f (.nums text true false)).numsOf
       if numbers.length > 1 then .pair none []
       else
         let r1 := (exRun f (.core p0 true false)).pairOf
         let r2 := (exRun f (.core p2 true false)).pairOf
         match r1.1, r2.1 with
         | some n1, some n2 =>
           if pyLe (.i 1) n1 ∧ pyLt (.i 0) n2 ∧ pyLt n2 (.i 1) then
             .pair (some (pyAdd n1 n2)) (r1.2 ++ p1 ++ r2.2)
           else .pair none []
         | _, _ => .pair none []
     | _ => .pair none [])
  | f + 1, .deciM tokens c =>
    -- one marker attempt of `_extract_decimal`
    (match partitionList (fun t => t.word = c) tokens with
     | [p0, p1, p2] =>
       let text := pyJoinSp (p0.map (·.word))
       let numbers := (exRun f (.nums text true false)).numsOf
       if numbers.length > 1 then .opt (some (none, []))
       else
         let r1 := (exRun f (.core p0 true false)).pairOf
         let r2 := (exRun f (.core p2 true false)).pairOf
         match r1.1, r2.1 with
         | some number, some decimal =>
           if ¬ pyContains (pyNumStr decimal) "." then
             match parseFloatQ ("0." ++ pyNumStr decimal) with
             | some q => .opt (some (some (pyAdd number (.f q)), r1.2 ++ p1 ++ r2.2))
             | none => .opt none
           else .opt none
         | _, _ => .opt none
     | _ => .opt none)
  | f + 1, .deci tokens =>
    -- `_extract_decimal`; markers "point" then "dot", with fallthrough
    (match (exRun f (.deciM tokens "point")).optOf with
     | some (v, t) => .pair v t
     | none =>
       match (exRun f (.deciM tokens "dot")).optOf with
       | some (v, t) => .pair v t
       | none => .pair none [])
  | f + 1, .core tokens ss ord =>
    let rf := (exRun f (.frac tokens)).pairOf
    if pvTruthy rf.1 then .pair rf.1 rf.2
    else
      let rd := (exRun f (.deci tokens)).pairOf
      if pvTruthy rd.1 then .pair rd.1 rd.2
      else
        let st := scanLoop ss ord "" ⟨[], none, none, []⟩ tokens
        -- `if val is not None and to_sum: val += sum(to_sum)`; `val` is never
        -- `None` here (a Python `False` still sums, as `False + n = n`)
        let val :=
          if st.toSum ≠ [] then
            some (pyAdd (st.val.getD (.i 0)) (st.toSum.foldl pyAdd (.i 0)))
          else st.val
        .pair val st.numberWords
  | f + 1, .nums text ss ord =>
    -- `extract_numbers_with_text`: repeated extraction with placeholder masking
    let toks0 := tokenize text
    let r := (exRun f (.core toks0 ss ord)).pairOf
    let toks := r.2.dropWhile (fun t => ARTICLES.contains t.word)
    match r.1 with
    | none => .numsR []
    | some v =>
      if ¬ v.truthy then .numsR []
      else
        let startI : Nat := (toks.head?.map (·.index)).getD 0
        let endI : Nat := ((toks.getLast?).map (·.index)).getD 0
        let str := pyJoinSp (toks.map (·.word))
        let words := toks0.map
          (fun t => if startI ≤ t.index ∧ t.index ≤ endI then placeholderWord else t.word)
        .numsR ((v, str, startI, endI) ::
          (exRun f (.nums (pyJoinSp words) ss ord)).numsOf)

/-- Default fuel for the public entry points: ample for the recursion depth on
any input of the theorems below. -/
def exFuel (text : String) : Nat := 2 * text.toList.length + 32

/-- Source `extract_number_with_text_en`. -/
def extract_number_with_text_en (text : String) (ss ord : Bool) :
    Option PyNum × String × Option Nat × Option Nat :=
  let r := (exRun (exFuel text) (.core (tokenize text) ss ord)).pairOf
  let toks := r.2.dropWhile (fun t => ARTICLES.contains t.word)
  (r.1, pyJoinSp (toks.map (·.word)), toks.head?.map (·.index),
   (toks.getLast?).map (·.index))

/-- Source `extractnumber_en` (with the default flags). -/
def extractnumber_en (text : String) : Option PyNum :=
  (extract_number_with_text_en text true false).1

/-- Source `extract_numbers_with_text`. -/
def extract_numbers_with_text (text : String) (ss ord : Bool) :
    List (PyNum × String × Nat × Nat) :=
  (exRun (exFuel text) (.nums text ss ord)).numsOf

/-! ## `convert_words_to_numbers` -/

/-- Source `_ReplaceableNumber`. -/
structure RNum where
  value : PyNum
  word : String
  startIndex : Nat
  endIndex : Nat
deriving DecidableEq, Repr

/-- Stable insertion by `startIndex` (Python `list.sort(key=start_index)`). -/
def insertByStart (x : RNum) : List RNum → List RNum
  | [] => [x]
  | y :: ys =>
    if y.startIndex ≤ x.startIndex then y :: insertByStart x ys
    else x :: y :: ys

def sortByStart (l : List RNum) : List RNum :=
  l.foldl (fun acc x => insertByStart x acc) []

/-- The token-emission loop of `convert_words_to_numbers`. -/
def rewriteLoop : List Token → List RNum → List String
  | [], _ => []
  | tok :: rest, nums =>
    match nums with
    | [] => tok.word :: rewriteLoop rest []
    | n :: ns =>
      if tok.index < n.startIndex then tok.word :: rewriteLoop rest (n :: ns)
      else
        let emitted := if tok.index = n.startIndex then [pyNumStr n.value] else []
        if tok.index = n.endIndex then emitted ++ rewriteLoop rest ns
        else emitted ++ rewriteLoop rest (n :: ns)

/-- Source `convert_words_to_numbers` with explicit flags. -/
def convert_words_to_numbers_f (text : String) (ss ord : Bool) : String :=
  let tokens := tokenize text
  let numbersToReplace := (extract_numbers_with_text text ss ord).map
    (fun r => RNum.mk r.1 r.2.1 r.2.2.1 r.2.2.2)
  pyJoinSp (rewriteLoop tokens (sortByStart numbersToReplace))

/-- Source `convert_words_to_numbers` at the default flags. -/
def convert_words_to_numbers (text : String) : String :=
  convert_words_to_numbers_f text true false

/-! ## Durations: `extract_duration_en` -/

/-- Try to match the regex `(\d+(?:\.?\d+)?)\s+<unit>s?` at the head of `cs`.
Returns the value group and the rest of the input after the match.  Mirrors
Python regex backtracking for this pattern: the leading digit run is maximal;
the optional `\.?\d+` part is tried with the dot first and dropped if the
tail then fails. -/
def unitWsTail (unit : List Char) (cs : List Char) : Option (List Char) :=
  let ws := cs.takeWhile pyIsSpace
  let r := cs.dropWhile pyIsSpace
  if ws = [] then none
  else if listStartsWith unit r then
    let r2 := r.drop unit.length
    some (match r2 with
          | 's' :: t => t
          | t => t)
  else none

def matchUnitAt (unit : List Char) (cs : List Char) : Option (List Char × List Char) :=
  let (d1, r1) := takeDigits cs
  if d1 = [] then none
  else
    let attempt1 : Option (List Char × List Char) :=
      match r1 with
      | '.' :: r2 =>
        let (d2, r3) := takeDigits r2
        if d2 = [] then none
        else
          match unitWsTail unit r3 with
          | some r4 => some (d1 ++ '.' :: d2, r4)
          | none => none
      | _ => none
    match attempt1 with
    | some r => some r
    | none =>
      match unitWsTail unit r1 with
      | some r4 => some (d1, r4)
      | none => none

/-- One pass of `re.findall` + `re.sub(..., '')` for one unit pattern over the
text: returns the list of matched value groups and the text with the matched
substrings removed. -/
def scanUnit (unit : List Char) : Nat → List Char → List String × List Char
  | 0, cs => ([], cs)
  | _ + 1, [] => ([], [])
  | f + 1, c :: cs =>
    match matchUnitAt unit (c :: cs) with
    | some (v, rest) =>
      let r := scanUnit unit f rest
      (String.mk v :: r.1, r.2)
    | none =>
      let r := scanUnit unit f cs
      (r.1, c :: r.2)

/-- The five units of `time_unit_to_seconds_map`, in the source's (insertion)
iteration order. -/
def durationUnits : List (String × QF) :=
  [("second", ⟨1, 1⟩), ("minute", ⟨60, 1⟩), ("hour", ⟨3600, 1⟩),
   ("day", ⟨86400, 1⟩), ("week", ⟨604800, 1⟩)]

/-- The `for unit, value in time_unit_to_seconds_map.items()` loop: collect
`float(match) * value` contributions and strip matches from the text. -/
def durationPass (text : String) : List QF × String :=
  let r := durationUnits.foldl
    (fun (acc : List QF × List Char) u =>
      let s := scanUnit u.1.toList (acc.2.length + 1) acc.2
      (acc.1 ++ s.1.map (fun v => QF.mul ((parseFloatQ v).getD ⟨0, 1⟩) u.2), s.2))
    ([], text.toList)
  (r.1, String.mk r.2)

/-- Source `extract_duration_en`.  The outer `none` is the bare `return None`
for a falsy (empty) text; otherwise the result is the `(duration, text)` pair,
whose first component is `none` when no unit pattern matched. -/
def extract_duration_en (text : String) : Option (Option QF × String) :=
  if text = "" then none
  else
    let p := durationPass (convert_words_to_numbers text)
    some (if p.1 ≠ [] then some (p.1.foldl QF.add ⟨0, 1⟩) else none, pyStrip p.2)

/-! ## Calendar arithmetic (proleptic Gregorian, as `datetime`/`relativedelta`) -/

def isLeap (y : Int) : Bool := (Int.emod y 4 = 0 ∧ Int.emod y 100 ≠ 0) ∨ Int.emod y 400 = 0

def daysInMonth (y m : Int) : Int :=
  if m = 2 then (if isLeap y then 29 else 28)
  else if m = 4 ∨ m = 6 ∨ m = 9 ∨ m = 11 then 30
  else 31

/-- Days since 1970-01-01 of a civil date (Howard Hinnant's algorithm). -/
def daysFromCivil (y m d : Int) : Int :=
  let y' := if m ≤ 2 then y - 1 else y
  let era := Int.fdiv y' 400
  let yoe := y' - era * 400
  let mp := Int.emod (m + 9) 12
  let doy := Int.fdiv (153 * mp + 2) 5 + d - 1
  let doe := yoe * 365 + Int.fdiv yoe 4 - Int.fdiv yoe 100 + doy
  era * 146097 + doe - 719468

/-- Civil date from days since 1970-01-01 (inverse of `daysFromCivil`). -/
def civilFromDays (z0 : Int) : Int × Int × Int :=
  let z := z0 + 719468
  let era := Int.fdiv z 146097
  let doe := z - era * 146097
  let yoe := Int.fdiv (doe - Int.fdiv doe 1460 + Int.fdiv doe 36524 - Int.fdiv doe 146096) 365
  let y := yoe + era * 400
  let doy := doe - (365 * yoe + Int.fdiv yoe 4 - Int.fdiv yoe 100)
  let mp := Int.fdiv (5 * doy + 2) 153
  let d := doy - Int.fdiv (153 * mp + 2) 5 + 1
  let m := mp + (if mp < 10 then 3 else -9)
  (if m ≤ 2 then y + 1 else y, m, d)

/-- Python `datetime` (timezone-naive). -/
structure PyDateTime where
  year : Int
  month : Int
  day : Int
  hour : Int
  minute : Int
  second : Int
  microsecond : Int
deriving DecidableEq, Repr

/-- Python `time` (only the fields the source reads). -/
structure PyTime where
  hour : Int
  minute : Int
deriving DecidableEq, Repr

/-- `dateNow.strftime("%w")` as an integer: Sunday-based weekday number
(Sunday = 0).  1970-01-01 (day 0) was a Thursday (= 4). -/
def dowSunday0 (dt : PyDateTime) : Int :=
  Int.emod (daysFromCivil dt.year dt.month dt.day + 4) 7

def replaceMicro (dt : PyDateTime) : PyDateTime := { dt with microsecond := 0 }

def replaceHMS0 (dt : PyDateTime) : PyDateTime :=
  { dt with hour := 0, minute := 0, second := 0 }

/-- `dt + relativedelta(days=n)`. -/
def addDays (dt : PyDateTime) (n : Int) : PyDateTime :=
  let (y, m, d) := civilFromDays (daysFromCivil dt.year dt.month dt.day + n)
  { dt with year := y, month := m, day := d }

/-- `dt + relativedelta(months=n)` (day clamped to the month length). -/
def addMonthsRel (dt : PyDateTime) (n : Int) : PyDateTime :=
  let mi := dt.month - 1 + n
  let y := dt.year + Int.fdiv mi 12
  let m := Int.emod mi 12 + 1
  { dt with year := y, month := m, day := min dt.day (daysInMonth y m) }

/-- `dt + relativedelta(years=n)` (day clamped, for Feb 29). -/
def addYearsRel (dt : PyDateTime) (n : Int) : PyDateTime :=
  let y := dt.year + n
  { dt with year := y, day := min dt.day (daysInMonth y dt.month) }

/-- Add a number of seconds (possibly negative), carrying into days;
implements `relativedelta` with hour/minute/second arguments. -/
def addSecondsTotal (dt : PyDateTime) (s : Int) : PyDateTime :=
  let tot := dt.hour * 3600 + dt.minute * 60 + dt.second + s
  let dd := Int.fdiv tot 86400
  let r := Int.emod tot 86400
  let dt := addDays dt dd
  { dt with hour := Int.fdiv r 3600, minute := Int.fdiv (Int.emod r 3600) 60,
            second := Int.emod r 60 }

/-- `dt + relativedelta(hours=h, minutes=m)`. -/
def addHM (dt : PyDateTime) (h m : Int) : PyDateTime :=
  addSecondsTotal dt (h * 3600 + m * 60)

/-- Chronological strict comparison of two (timezone-naive) datetimes. -/
def dtLt (a b : PyDateTime) : Bool :=
  let da := daysFromCivil a.year a.month a.day
  let db := daysFromCivil b.year b.month b.day
  let sa := (a.hour * 3600 + a.minute * 60 + a.second) * 1000000 + a.microsecond
  let sb := (b.hour * 3600 + b.minute * 60 + b.second) * 1000000 + b.microsecond
  da < db ∨ (da = db ∧ sa < sb)

/-! ## `extract_datetime_en`: cleaning and shared state -/

/-- Source `clean_string`: lowercase, strip punctuation/articles, normalise
`o'clock` spellings, singularise year-multiples, split, then per word strip
`'s` and (for digit-leading words not containing "second") the ordinal
suffixes rd/st/nd/th. -/
def clean_string (s : String) : List String :=
  let s := pyLower s
  let s := pyReplace s "?" ""
  let s := pyReplace s "." ""
  let s := pyReplace s "," ""
  let s := pyReplace s " the " " "
  let s := pyReplace s " a " " "
  let s := pyReplace s " an " " "
  let s := pyReplace s "o' clock" "o'clock"
  let s := pyReplace s "o clock" "o'clock"
  let s := pyReplace s "o ' clock" "o'clock"
  let s := pyReplace s "o 'clock" "o'clock"
  let s := pyReplace s "oclock" "o'clock"
  let s := pyReplace s "couple" "2"
  let s := pyReplace s "centuries" "century"
  let s := pyReplace s "decades" "decade"
  let s := pyReplace s "millenniums" "millennium"
  (pySplitWs s).map (fun w =>
    let w := pyReplace w "'s" ""
    if headIsDigit w then
      ["rd", "st", "nd", "th"].foldl
        (fun w o =>
          if pyContains w o ∧ ¬ pyContains w "second" then pyReplace w o "" else w)
        w
    else w)

def timeQualifiersAM : List String := ["morning"]

def timeQualifiersPM : List String := ["afternoon", "evening", "tonight", "night"]

def timeQualifiersList : List String := timeQualifiersAM ++ timeQualifiersPM

def markers : List String :=
  ["at", "in", "on", "by", "this", "around", "for", "of", "within"]

def daysList : List String :=
  ["monday", "tuesday", "wednesday", "thursday", "friday", "saturday", "sunday"]

def monthsList : List String :=
  ["january", "february", "march", "april", "may", "june", "july", "august",
   "september", "october", "november", "december"]

def monthsShort : List String :=
  ["jan", "feb", "mar", "apr", "may", "june", "july", "aug", "sept", "oct",
   "nov", "dec"]

def yearMultiples : List String := ["decade", "century", "millennium"]

def dayMultiples : List String := ["weeks", "months", "years"]

def validFollowups : List String :=
  daysList ++ monthsList ++ monthsShort ++ ["today", "tomorrow", "next", "last", "now"]

/-- The mutable context threaded through the date phase, the time phase and
the result composition of `extract_datetime_en`.  `dayOffset = none` models
the Python `False` initial value; `hrAbs`/`minAbs` are `none` for Python
`None` and `some (-1)` for the invalidation sentinel `-1`. -/
structure DTCtx where
  words : List String
  dateNow : PyDateTime
  found : Bool
  daySpecified : Bool
  dayOffset : Option Int
  monthOffset : Int
  yearOffset : Int
  today : Int
  currentYear : Int
  fromFlag : Bool
  datestr : String
  hasYear : Bool
  timeQualifier : String
  hrOffset : Int
  minOffset : Int
  secOffset : Int
  hrAbs : Option Int
  minAbs : Option Int
  military : Bool
deriving Repr

/-- Blank (set to `""`) the word at an index, a no-op when out of range (the
source has an explicit bounds check in the time phase; in the date phase the
index is in range whenever the code runs it). -/
def blankAt (ws : List String) (i : Nat) : List String := ws.set i ""

def blankRange (ws : List String) (start : Nat) : Nat → List String
  | 0 => ws
  | n + 1 => blankRange (blankAt ws start) (start + 1) n

/-- Blank the first occurrence of `w` (Python `words[words.index(w)] = ""`). -/
def blankFirst (ws : List String) (w : String) : List String :=
  match ws.indexOf? w with
  | some i => blankAt ws i
  | none => ws

/-- The weekday branch of the date phase (source lines around
`elif word in days and not fromFlag`): `(d + 1) - today`, `+7` if negative,
then `±7` for a preceding next/last.  Returns the new day offset and the pair
(extra words used, start moved left). -/
def weekdayOffset (d : Int) (today : Int) (wordPrev : String) : Int × Bool :=
  let base := (d + 1) - today
  let base := if base < 0 then base + 7 else base
  if wordPrev = "next" then (base + 7, true)
  else if wordPrev = "last" then (base - 7, true)
  else (base, false)

/-- Python truncation `int(x)` of a number (toward zero). -/
def pyTruncInt : PyNum → Int
  | .i n => n
  | .f q => Int.tdiv q.num (Int.ofNat q.den)

/-! ## Date phase -/

/-- The post-match trailer of the date sweep (`if used > 0:`): extend the
match over a preceding "this", blank the consumed range, blank a preceding
marker word, and set the found/day-specified flags. -/
def dateTrailer (c1 : DTCtx) (used : Nat) (start : Int) : DTCtx :=
  let p : Nat × Int :=
    if start - 1 > 0 ∧ c1.words.getD (start - 1).toNat "" = "this" then
      (used + 1, start - 1)
    else (used, start)
  let ws := blankRange c1.words p.2.toNat p.1
  let ws :=
    if p.2 - 1 ≥ 0 ∧ ws.getD (p.2 - 1).toNat "" ∈ markers then
      blankAt ws (p.2 - 1).toNat
    else ws
  { c1 with words := ws, found := true, daySpecified := true }

/-- One iteration of the date-resolution sweep for a non-blank word, taking
the context and the word windows (`word` is already `rstrip('s')`-ed).
An `Except.error` is the early `return` of the `"now"` branch. -/
def dateStepW (c : DTCtx) (idx : Nat)
    (word wordPrev wordNext wordNextNext wordPrevPrev : String) :
    Except (PyDateTime × String) DTCtx :=
  if word = "now" ∧ c.datestr = "" then
    .error (replaceMicro c.dateNow,
            pyJoinSp (pySplitWs (pyJoinSp (c.words.drop (idx + 1)))))
  else
    -- the elif chain; produces the updated context, `used` and `start`
    let chain : DTCtx × Nat × Int :=
      if wordNext ∈ yearMultiples then
        let mult : PyNum :=
          match (if is_numeric word then extractnumber_en word else none) with
          | some v => if v.truthy then v else .i 1
          | none => .i 1
        let m := pyTruncInt mult
        let yo := if wordNext = "decade" then m * 10
                  else if wordNext = "century" then m * 100
                  else m * 1000
        ({ c with yearOffset := yo }, 2, (idx : Int))
      else if word = "2" ∧ wordNext = "of" ∧ wordNextNext ∈ yearMultiples then
        let yo := if wordNextNext = "decade" then 20
                  else if wordNextNext = "century" then 200
                  else 2000
        ({ c with yearOffset := yo }, 3, (idx : Int))
      else if word = "2" ∧ wordNext = "of" ∧ wordNextNext ∈ dayMultiples then
        let c := if wordNextNext = "years" then { c with yearOffset := 2 }
                 else if wordNextNext = "months" then { c with monthOffset := 2 }
                 else { c with dayOffset := some 14 }
        (c, 3, (idx : Int))
      else if word ∈ timeQualifiersList then
        ({ c with timeQualifier := word }, 0, (idx : Int))
      else if word = "today" ∧ ¬ c.fromFlag then
        ({ c with dayOffset := some 0 }, 1, (idx : Int))
      else if word = "tomorrow" ∧ ¬ c.fromFlag then
        ({ c with dayOffset := some 1 }, 1, (idx : Int))
      else if word = "day" ∧ wordNext = "after" ∧ wordNextNext = "tomorrow" ∧
          ¬ c.fromFlag ∧ ¬ headIsDigit wordPrev then
        if wordPrev = "the" then
          ({ c with dayOffset := some 2 }, 4, (idx : Int) - 1)
        else
          ({ c with dayOffset := some 2 }, 3, (idx : Int))
      else if word = "day" then
        if headIsDigit wordPrev then
          ({ c with dayOffset := some (c.dayOffset.getD 0 + pyIntDigits wordPrev) },
           2, (idx : Int) - 1)
        else (c, 0, (idx : Int))
      else if word = "week" ∧ ¬ c.fromFlag then
        if headIsDigit wordPrev then
          ({ c with dayOffset := some (c.dayOffset.getD 0 + pyIntDigits wordPrev * 7) },
           2, (idx : Int) - 1)
        else if wordPrev = "next" then
          ({ c with dayOffset := some 7 }, 2, (idx : Int) - 1)
        else if wordPrev = "last" then
          ({ c with dayOffset := some (-7) }, 2, (idx : Int) - 1)
        else (c, 0, (idx : Int))
      else if word = "month" ∧ ¬ c.fromFlag then
        if headIsDigit wordPrev then
          ({ c with monthOffset := pyIntDigits wordPrev }, 2, (idx : Int) - 1)
        else if wordPrev = "next" then
          ({ c with monthOffset := 1 }, 2, (idx : Int) - 1)
        else if wordPrev = "last" then
          ({ c with monthOffset := -1 }, 2, (idx : Int) - 1)
        else (c, 0, (idx : Int))
      else if word = "year" ∧ ¬ c.fromFlag then
        if headIsDigit wordPrev then
          ({ c with yearOffset := pyIntDigits wordPrev }, 2, (idx : Int) - 1)
        else if wordPrev = "next" then
          ({ c with yearOffset := 1 }, 2, (idx : Int) - 1)
        else if wordPrev = "last" then
          ({ c with yearOffset := -1 }, 2, (idx : Int) - 1)
        else (c, 0, (idx : Int))
      else if word ∈ daysList ∧ ¬ c.fromFlag then
        let d : Int := (daysList.indexOf word : Nat)
        let r := weekdayOffset d c.today wordPrev
        if r.2 then ({ c with dayOffset := some r.1 }, 2, (idx : Int) - 1)
        else ({ c with dayOffset := some r.1 }, 1, (idx : Int))
      else if word ∈ monthsList ∨ (word ∈ monthsShort ∧ ¬ c.fromFlag) then
        let m := if word ∈ monthsList then monthsList.indexOf word
                 else monthsShort.indexOf word
        let ds := monthsList.getD m ""
        if wordPrev ≠ "" ∧ (headIsDigit wordPrev ∨
            (wordPrev = "of" ∧ headIsDigit wordPrevPrev)) then
          let (ds, used, start) :=
            if wordPrev = "of" ∧ headIsDigit wordPrevPrev then
              (ds ++ " " ++ wordPrevPrev, 3, (idx : Int) - 2)
            else (ds ++ " " ++ wordPrev, 2, (idx : Int) - 1)
          if wordNext ≠ "" ∧ headIsDigit wordNext then
            ({ c with datestr := ds ++ " " ++ wordNext, hasYear := true },
             used + 1, start)
          else
            ({ c with datestr := ds, hasYear := false }, used, start)
        else if wordNext ≠ "" ∧ headIsDigit wordNext then
          if wordNextNext ≠ "" ∧ headIsDigit wordNextNext then
            let ds2 := ds ++ " " ++ wordNext ++ " " ++ wordNextNext
            ({ c with datestr := ds2, hasYear := true }, 3, (idx : Int))
          else
            ({ c with datestr := ds ++ " " ++ wordNext, hasYear := false },
             2, (idx : Int))
        else ({ c with datestr := ds }, 1, (idx : Int))
      else (c, 0, (idx : Int))
    let (c1, used, start) := chain
    -- the `from`/`after` relative-anchor composition (a separate `if`)
    let (c1, used, start) :=
      if (word = "from" ∨ word = "after") ∧ wordNext ∈ validFollowups then
        let c2 := { c1 with fromFlag := true }
        if wordNext = "tomorrow" then
          ({ c2 with dayOffset := some (c2.dayOffset.getD 0 + 1) }, 2, start)
        else if wordNext ∈ daysList then
          let d : Int := (daysList.indexOf wordNext : Nat)
          let tmp := (d + 1) - c2.today
          let tmp := if tmp < 0 then tmp + 7 else tmp
          ({ c2 with dayOffset := some (c2.dayOffset.getD 0 + tmp) }, 2, start)
        else if wordNextNext ≠ "" ∧ wordNextNext ∈ daysList then
          let d : Int := (daysList.indexOf wordNextNext : Nat)
          let tmp := (d + 1) - c2.today
          if wordNext = "next" then
            ({ c2 with dayOffset := some (c2.dayOffset.getD 0 + (tmp + 7)) },
             4, start - 1)
          else if wordNext = "last" then
            ({ c2 with dayOffset := some (c2.dayOffset.getD 0 + (tmp - 7)) },
             4, start - 1)
          else
            ({ c2 with dayOffset := some (c2.dayOffset.getD 0 + tmp) }, 3, start)
        else (c2, 2, start)
      else (c1, used, start)
    if used > 0 then .ok (dateTrailer c1 used start) else .ok c1

/-- The date-resolution sweep (`for idx, word in enumerate(words)`); the word
list has constant length, so the index runs over the initial length. -/
def dateLoop : Nat → Nat → DTCtx → Except (PyDateTime × String) DTCtx
  | 0, _, c => .ok c
  | f + 1, idx, c =>
    if idx < c.words.length then
      let raw := c.words.getD idx ""
      if raw = "" then dateLoop f (idx + 1) c
      else
        let word := pyRstripChar 's' raw
        let wordPrevPrev := if idx > 1 then c.words.getD (idx - 2) "" else ""
        let wordPrev := if idx > 0 then c.words.getD (idx - 1) "" else ""
        let wordNext := c.words.getD (idx + 1) ""
        let wordNextNext := c.words.getD (idx + 2) ""
        match dateStepW c idx word wordPrev wordNext wordNextNext wordPrevPrev with
        | .error r => .error r
        | .ok c' => dateLoop f (idx + 1) c'
    else .ok c

/-! ## Time phase -/

/-- The colon-time stage machine of the digit branch (`"3:45pm"` → hours,
minutes, remainder).  Mirrors the source exactly, including the quirk that the
character that leaves the digit stages is skipped (`i -= 1` inside a Python
`for` has no effect), so `"3:45pm"` yields remainder `"m"`. -/
def colonStage2 (cs : List Char) : String :=
  String.mk (cs.filter (· ≠ '.'))

def colonStage1 (mm : List Char) : List Char → String × String
  | [] => (String.mk mm.reverse, "")
  | c :: cs =>
    if charIsDigit c then colonStage1 (c :: mm) cs
    else (String.mk mm.reverse, colonStage2 cs)

def colonStage0 (hh : List Char) : List Char → String × String × String
  | [] => (String.mk hh.reverse, "", "")
  | c :: cs =>
    if charIsDigit c then colonStage0 (c :: hh) cs
    else if c = ':' then
      let r := colonStage1 [] cs
      (String.mk hh.reverse, r.1, r.2)
    else (String.mk hh.reverse, "", colonStage2 cs)

def colonParse (w : String) : String × String × String := colonStage0 [] w.toList

/-- The `remainder not in ['am', 'pm', ...]` test of the ambiguous-hour rule. -/
def remainderNeutral (r : String) : Bool :=
  ¬ (r = "am" ∨ r = "pm" ∨ r = "hours" ∨ r = "minutes" ∨ r = "second" ∨
     r = "seconds" ∨ r = "hour" ∨ r = "minute")

/-- The ambiguous bare-hour disambiguation (source: the
`if dateNow.hour < HH / elif dateNow.hour < HH + 12 / else` ladder): keep the
hour if still upcoming, else add 12 (assume PM), else roll the day offset
forward by one. -/
def ambiguousAdjust (nowHour HH : Int) (dayOff : Option Int) : Int × Option Int :=
  if nowHour < HH then (HH, dayOff)
  else if nowHour < HH + 12 then (HH + 12, dayOff)
  else (HH, some (dayOff.getD 0 + 1))

/-- Hour/minute assembly of the digit branch (source lines `HH = int(strHH)…`
through the time-qualifier PM bump): am/pm adjustment, the ambiguous-hour rule
(guarded by military/remainder/day-specified), then the PM qualifier bump.
Returns `(HH, MM, new day offset)`. -/
def digitHHMM (c : DTCtx) (strHH strMM remainder : String) : Int × Int × Option Int :=
  let HH : Int := if strHH ≠ "" then pyIntDigits strHH else 0
  let MM : Int := if strMM ≠ "" then pyIntDigits strMM else 0
  let HH := if remainder = "pm" ∧ HH < 12 then HH + 12 else HH
  let HH := if remainder = "am" ∧ HH ≥ 12 then HH - 12 else HH
  let (HH, dayOff) :=
    if ¬ c.military ∧ remainderNeutral remainder ∧
        (¬ c.daySpecified ∨ c.dayOffset.getD 0 < 1) then
      ambiguousAdjust c.dateNow.hour HH c.dayOffset
    else (HH, c.dayOffset)
  let HH := if c.timeQualifier ∈ timeQualifiersPM ∧ HH < 12 then HH + 12 else HH
  (HH, MM, dayOff)

/-- Validity check and anchor assignment closing the digit branch (source:
`if HH > 24 or MM > 59: isTime = False; used = 0` then
`if isTime: hrAbs = HH; minAbs = MM; used += 1`).  Returns the updated
context, the final `used`, and the final `isTime`. -/
def digitFinish (c : DTCtx) (isTime0 : Bool) (used0 : Nat)
    (strHH strMM remainder : String) : DTCtx × Nat × Bool :=
  if (digitHHMM c strHH strMM remainder).1 > 24 ∨
      (digitHHMM c strHH strMM remainder).2.1 > 59 then
    ({ c with dayOffset := (digitHHMM c strHH strMM remainder).2.2 }, 0, false)
  else if isTime0 then
    let r := digitHHMM c strHH strMM remainder
    ({ c with dayOffset := r.2.2, hrAbs := some r.1, minAbs := some r.2.1 },
     used0 + 1, true)
  else
    ({ c with dayOffset := (digitHHMM c strHH strMM remainder).2.2 }, used0, false)

/-- The digit-leading branch of the time sweep up to the hour/minute assembly:
classifies colon times, am/pm-marked hours, relative offsets ("in 3 hours"),
military times and bare hours.  Returns the updated context (offsets, military
flag, sentinel invalidations, day-specified), `isTime`, `used`, and the
`strHH`/`strMM`/`remainder` strings. -/
def digitCore (c : DTCtx) (word wordPrev wordNext wordNextNext word3 : String) :
    DTCtx × Bool × Nat × String × String × String :=
  if pyContains word ":" then
    let p := colonParse word
    let strHH := p.1
    let strMM := p.2.1
    let rem0 := p.2.2
    if rem0 ≠ "" then (c, true, 0, strHH, strMM, rem0)
    else
      let nextWord := pyReplace wordNext "." ""
      if nextWord = "am" ∨ nextWord = "pm" then (c, true, 1, strHH, strMM, nextWord)
      else if nextWord = "tonight" then (c, true, 1, strHH, strMM, "pm")
      else if wordNext = "in" ∧ wordNextNext = "the" ∧ word3 = "morning" then
        (c, true, 3, strHH, strMM, "am")
      else if wordNext = "in" ∧ wordNextNext = "the" ∧ word3 = "afternoon" then
        (c, true, 3, strHH, strMM, "pm")
      else if wordNext = "in" ∧ wordNextNext = "the" ∧ word3 = "evening" then
        (c, true, 3, strHH, strMM, "pm")
      else if wordNext = "in" ∧ wordNextNext = "morning" then
        (c, true, 2, strHH, strMM, "am")
      else if wordNext = "in" ∧ wordNextNext = "afternoon" then
        (c, true, 2, strHH, strMM, "pm")
      else if wordNext = "in" ∧ wordNextNext = "evening" then
        (c, true, 2, strHH, strMM, "pm")
      else if wordNext = "this" ∧ wordNextNext = "morning" then
        ({ c with daySpecified := true }, true, 2, strHH, strMM, "am")
      else if wordNext = "this" ∧ wordNextNext = "afternoon" then
        ({ c with daySpecified := true }, true, 2, strHH, strMM, "pm")
      else if wordNext = "this" ∧ wordNextNext = "evening" then
        ({ c with daySpecified := true }, true, 2, strHH, strMM, "pm")
      else if wordNext = "at" ∧ wordNextNext = "night" then
        if strHH ≠ "" ∧ pyIntDigits strHH > 5 then (c, true, 2, strHH, strMM, "pm")
        else (c, true, 2, strHH, strMM, "am")
      else
        if c.timeQualifier ≠ "" then
          -- military time marked by a time qualifier; note the source
          -- *concatenates* `str(int(strHH) + 12)` onto `strHH`
          let strHH :=
            if strHH ≠ "" ∧ pyIntDigits strHH ≤ 12 ∧
                c.timeQualifier ∈ timeQualifiersPM then
              strHH ++ pyIntStr (pyIntDigits strHH + 12)
            else strHH
          ({ c with military := true }, true, 0, strHH, strMM, "")
        else (c, true, 0, strHH, strMM, "")
  else
    -- numbers without colons
    let strNum := String.mk (word.toList.filter charIsDigit)
    let rem0 := String.mk (word.toList.filter (fun ch => ¬ charIsDigit ch))
    let remainder := if rem0 = "" then pyStrip (pyReplace wordNext "." "") else rem0
    if remainder = "pm" ∨ wordNext = "pm" ∨ remainder = "p.m." ∨ wordNext = "p.m." then
      (c, true, 1, strNum, "", "pm")
    else if remainder = "am" ∨ wordNext = "am" ∨ remainder = "a.m." ∨ wordNext = "a.m." then
      (c, true, 1, strNum, "", "am")
    else
      let n := pyIntDigits strNum
      if n > 100 ∧ (wordPrev = "o" ∨ wordPrev = "oh") then
        -- "oh eight hundred" spoken military time
        let used := if wordNext = "hours" then 1 else 0
        ({ c with military := true }, true, used,
         pyIntStr (Int.fdiv n 100), pyIntStr (Int.emod n 100), remainder)
      else if (wordNext = "hours" ∨ wordNext = "hour" ∨
               remainder = "hours" ∨ remainder = "hour") ∧
              word.toList.head? ≠ some '0' ∧ (n < 100 ∨ n > 2400) then
        -- "in 3 hours" relative offset
        ({ c with hrOffset := n, hrAbs := some (-1), minAbs := some (-1) },
         false, 2, "", "", remainder)
      else if wordNext = "minutes" ∨ wordNext = "minute" ∨
              remainder = "minutes" ∨ remainder = "minute" then
        ({ c with minOffset := n, hrAbs := some (-1), minAbs := some (-1) },
         false, 2, "", "", remainder)
      else if wordNext = "seconds" ∨ wordNext = "second" ∨
              remainder = "seconds" ∨ remainder = "second" then
        ({ c with secOffset := n, hrAbs := some (-1), minAbs := some (-1) },
         false, 2, "", "", remainder)
      else if n > 100 then
        -- military time, e.g. "3300 hours"
        let used := if wordNext = "hours" ∨ wordNext = "hour" ∨
                       remainder = "hours" ∨ remainder = "hour" then 1 else 0
        ({ c with military := true }, true, used,
         pyIntStr (Int.fdiv n 100), pyIntStr (Int.emod n 100), remainder)
      else if wordNext ≠ "" ∧ headIsDigit wordNext then
        -- military time, e.g. "04 38 hours"
        let used := 1 + (if wordNextNext = "hours" ∨ wordNextNext = "hour" ∨
                            remainder = "hours" ∨ remainder = "hour" then 1 else 0)
        ({ c with military := true }, true, used, strNum, wordNext, remainder)
      else if wordNext = "" ∨ wordNext = "o'clock" ∨
              (wordNext = "in" ∧ (wordNextNext = "the" ∨
                                  wordNextNext = c.timeQualifier)) then
        -- bare hour
        let used := if wordNext = "o'clock" then 1 else 0
        let ur : Nat × String :=
          if wordNext = "in" ∨ wordNextNext = "in" then
            let used := used + (if wordNext = "in" then 1 else 2)
            if wordNextNext ≠ "" ∧ (pyContains c.timeQualifier wordNextNext ∨
                                    pyContains c.timeQualifier word3) then
              let pr : Nat × String :=
                if wordNextNext ∈ timeQualifiersPM ∨ word3 ∈ timeQualifiersPM then
                  (used + 1, "pm")
                else (used, remainder)
              if wordNextNext ∈ timeQualifiersAM ∨ word3 ∈ timeQualifiersAM then
                (pr.1 + 1, "am")
              else pr
            else (used, remainder)
          else (used, remainder)
        if c.timeQualifier ≠ "" then
          ({ c with military := true }, true, ur.1 + 1, strNum, "00", ur.2)
        else (c, true, ur.1, strNum, "00", ur.2)
      else (c, false, 0, "", "", remainder)

/-- The branch dispatch of the time sweep for one non-blank word; returns the
updated context and `used`. -/
def timeBranch (c : DTCtx) (idx : Nat)
    (word wordPrev wordPrevPrev wordNext wordNextNext word3 : String) :
    DTCtx × Nat :=
  if word = "noon" then ({ c with hrAbs := some 12 }, 1)
  else if word = "midnight" then ({ c with hrAbs := some 0 }, 1)
  else if word = "morning" then
    (if c.hrAbs = none then { c with hrAbs := some 8 } else c, 1)
  else if word = "afternoon" then
    (if c.hrAbs = none then { c with hrAbs := some 15 } else c, 1)
  else if word = "evening" then
    (if c.hrAbs = none then { c with hrAbs := some 19 } else c, 1)
  else if word = "2" ∧ wordNext = "of" ∧
      (wordNextNext = "hours" ∨ wordNextNext = "minutes" ∨
       wordNextNext = "seconds") then
    if wordNextNext = "hours" then ({ c with hrOffset := 2 }, 3)
    else if wordNextNext = "minutes" then ({ c with minOffset := 2 }, 3)
    else ({ c with secOffset := 2 }, 3)
  else if word = "hour" ∧ (wordPrev ∈ markers ∨ wordPrevPrev ∈ markers) then
    let c :=
      if wordPrev = "half" then { c with minOffset := 30 }
      else if wordPrev = "quarter" then { c with minOffset := 15 }
      else if wordPrevPrev = "quarter" then
        let c := { c with minOffset := 15 }
        -- the source blanks words[idx-3] if it is a marker, then tests the
        -- (already blanked) slot for "this", which can never match
        let c :=
          if idx > 2 ∧ c.words.getD (idx - 3) "" ∈ markers then
            { c with words := blankAt c.words (idx - 3) }
          else c
        { c with words := blankAt c.words (idx - 2) }
      else if wordPrev = "within" then { c with hrOffset := 1 }
      else { c with hrOffset := 1 }
    let c :=
      if wordPrevPrev ∈ markers then
        let c := { c with words := blankAt c.words (idx - 2) }
        if wordPrevPrev = "this" then { c with daySpecified := true } else c
      else c
    ({ c with words := blankAt c.words (idx - 1), hrAbs := some (-1),
              minAbs := some (-1) }, 1)
  else if word = "minute" ∧ wordPrev = "in" then
    ({ c with minOffset := 1, words := blankAt c.words (idx - 1) }, 1)
  else if word = "second" ∧ wordPrev = "in" then
    ({ c with secOffset := 1, words := blankAt c.words (idx - 1) }, 1)
  else if headIsDigit word then
    let r := digitCore c word wordPrev wordNext wordNextNext word3
    let f := digitFinish r.1 r.2.1 r.2.2.1 r.2.2.2.1 r.2.2.2.2.1 r.2.2.2.2.2
    (f.1, f.2.1)
  else (c, 0)

/-- The post-match trailer of the time sweep (`if used > 0:`): blank the
consumed words, blank a preceding "o"/"oh", apply an early/late hour shift,
blank preceding markers (propagating `daySpecified` for "this"), set `found`. -/
def timeTrailer (c : DTCtx) (idx : Nat) (used : Nat)
    (wordPrev wordPrevPrev : String) : DTCtx :=
  if used = 0 then c
  else
    let ws := blankRange c.words idx used
    let ws := if wordPrev = "o" ∨ wordPrev = "oh" then blankFirst ws wordPrev else ws
    let cw : DTCtx × List String × Nat :=
      if wordPrev = "early" then
        ({ c with hrOffset := -1 }, blankAt ws (idx - 1), idx - 1)
      else if wordPrev = "late" then
        ({ c with hrOffset := 1 }, blankAt ws (idx - 1), idx - 1)
      else (c, ws, idx)
    let c := { cw.1 with words := cw.2.1 }
    let idxEff := cw.2.2
    let c :=
      if idxEff > 0 ∧ wordPrev ∈ markers then
        let c := { c with words := blankAt c.words (idxEff - 1) }
        if wordPrev = "this" then { c with daySpecified := true } else c
      else c
    let c :=
      if idxEff > 1 ∧ wordPrevPrev ∈ markers then
        let c := { c with words := blankAt c.words (idxEff - 2) }
        if wordPrevPrev = "this" then { c with daySpecified := true } else c
      else c
    { c with found := true }

/-- The time-resolution sweep. -/
def timeLoop : Nat → Nat → DTCtx → DTCtx
  | 0, _, c => c
  | f + 1, idx, c =>
    if idx < c.words.length then
      let word := c.words.getD idx ""
      if word = "" then timeLoop f (idx + 1) c
      else
        let wordPrevPrev := if idx > 1 then c.words.getD (idx - 2) "" else ""
        let wordPrev := if idx > 0 then c.words.getD (idx - 1) "" else ""
        let wordNext := c.words.getD (idx + 1) ""
        let wordNextNext := c.words.getD (idx + 2) ""
        let word3 := c.words.getD (idx + 3) ""
        let r := timeBranch c idx word wordPrev wordPrevPrev wordNext wordNextNext word3
        timeLoop f (idx + 1) (timeTrailer r.1 idx r.2 wordPrev wordPrevPrev)
    else c

/-! ## Result composition -/

/-- `datetime.strptime(datestr, "%B %d")`: full month name and a 1–2 digit day
valid for that month in the default year 1900. -/
def strptimeBD (s : String) : Option (Int × Int) :=
  match pySplitWs s with
  | [mw, dw] =>
    match monthsList.indexOf? mw with
    | some mi =>
      let m : Int := (mi : Int) + 1
      if strIsDigit dw ∧ dw.toList.length ≤ 2 then
        let d : Int := pyIntDigits dw
        if 1 ≤ d ∧ d ≤ daysInMonth 1900 m then some (m, d) else none
      else none
    | none => none
  | _ => none

/-- `datetime.strptime(datestr, "%B %d %Y")`. -/
def strptimeBDY (s : String) : Option (Int × Int × Int) :=
  match pySplitWs s with
  | [mw, dw, yw] =>
    match monthsList.indexOf? mw with
    | some mi =>
      let m : Int := (mi : Int) + 1
      if strIsDigit dw ∧ dw.toList.length ≤ 2 ∧ strIsDigit yw ∧
          yw.toList.length ≤ 4 then
        let d : Int := pyIntDigits dw
        let y : Int := pyIntDigits yw
        if 1 ≤ d ∧ d ≤ daysInMonth y m ∧ 1 ≤ y then some (y, m, d) else none
      else none
    | none => none
  | _ => none

/-- The trailing cleanup loop blanking an "and" between two blanks.  For
`idx = 0` Python reads `words[-1]` (the last element); reading past the end
(`words[idx+1]` on a final "and") would raise `IndexError` in the source and
is read as `""` here (no theorem reaches that path). -/
def andCleanup (ws : List String) : Nat → Nat → List String
  | 0, _ => ws
  | f + 1, idx =>
    if idx < ws.length then
      let prev := if idx = 0 then (ws.getLast?).getD "" else ws.getD (idx - 1) ""
      let ws' :=
        if ws.getD idx "" = "and" ∧ prev = "" ∧ ws.getD (idx + 1) "" = "" then
          blankAt ws idx
        else ws
      andCleanup ws' f (idx + 1)
    else ws

/-- The predicate computed by the source's inner function `date_found`.
The comparison `dayOffset is True` of the source can never hold (`dayOffset`
is `False` or an `int`), so that disjunct is the constant `false` here. -/
def dateFoundPred (c : DTCtx) : Bool :=
  c.found || (c.datestr ≠ "" || c.yearOffset ≠ 0 || c.monthOffset ≠ 0 || false ||
    c.hrOffset ≠ 0 || (match c.hrAbs with | none => false | some n => n ≠ 0) ||
    c.minOffset ≠ 0 || (match c.minAbs with | none => false | some n => n ≠ 0) ||
    c.secOffset ≠ 0)

/-- The result composition of `extract_datetime_en` (everything after the two
sweeps).  The source line `if not date_found: return None` tests the *function
object* `date_found` — which is always truthy — instead of calling it, so that
`return None` is dead code and no corresponding branch exists here (see
`dateFoundPred` for the predicate the call would have computed).  The `none`
results below correspond to the source raising `ValueError` out of
`datetime.strptime` (unreachable in every theorem). -/
def composeResult (c : DTCtx) (default_time : Option PyTime) :
    Option (PyDateTime × String) :=
  let dayOffset : Int := c.dayOffset.getD 0
  let ed := replaceMicro c.dateNow
  let edO : Option PyDateTime :=
    if c.datestr ≠ "" then
      let tempO : Option PyDateTime :=
        match strptimeBD c.datestr with
        | some (m, d) => some ⟨1900, m, d, 0, 0, 0, 0⟩
        | none =>
          match strptimeBDY c.datestr with
          | some (y, m, d) => some ⟨y, m, d, 0, 0, 0, 0⟩
          | none => none
      match tempO with
      | none => none
      | some temp =>
        let ed := replaceHMS0 ed
        if ¬ c.hasYear then
          let temp2 := { temp with year := ed.year }
          if dtLt ed temp2 then
            some { ed with year := c.currentYear, month := temp.month, day := temp.day }
          else
            some { ed with year := c.currentYear + 1, month := temp.month, day := temp.day }
        else
          some { ed with year := temp.year, month := temp.month, day := temp.day }
    else
      if c.hrOffset = 0 ∧ c.minOffset = 0 ∧ c.secOffset = 0 then
        some (replaceHMS0 ed)
      else some ed
  match edO with
  | none => none
  | some ed =>
    let ed := if c.yearOffset ≠ 0 then addYearsRel ed c.yearOffset else ed
    let ed := if c.monthOffset ≠ 0 then addMonthsRel ed c.monthOffset else ed
    let ed := if dayOffset ≠ 0 then addDays ed dayOffset else ed
    let ed :=
      if c.hrAbs ≠ some (-1) ∧ c.minAbs ≠ some (-1) then
        let hm : Int × Int :=
          match c.hrAbs, c.minAbs, default_time with
          | none, none, some t => (t.hour, t.minute)
          | _, _, _ => (c.hrAbs.getD 0, c.minAbs.getD 0)
        let ed := addHM ed hm.1 hm.2
        if (hm.1 ≠ 0 ∨ hm.2 ≠ 0) ∧ c.datestr = "" then
          if ¬ c.daySpecified ∧ dtLt ed c.dateNow then addDays ed 1 else ed
        else ed
      else ed
    let ed := if c.hrOffset ≠ 0 then addHM ed c.hrOffset 0 else ed
    let ed := if c.minOffset ≠ 0 then addHM ed 0 c.minOffset else ed
    let ed := if c.secOffset ≠ 0 then addSecondsTotal ed c.secOffset else ed
    let ws := andCleanup c.words (c.words.length + 1) 0
    some (ed, pyJoinSp (pySplitWs (pyJoinSp ws)))

/-- Source `extract_datetime_en`: `None` for an empty text or an absent
reference instant; otherwise clean, run the date sweep (which may return
early on "now"), the time sweep, and compose the result. -/
def extract_datetime_en (s : String) (dateNow : Option PyDateTime)
    (default_time : Option PyTime) : Option (PyDateTime × String) :=
  match dateNow with
  | none => none
  | some dn =>
    if s = "" then none
    else
      let words := clean_string s
      let c0 : DTCtx :=
        { words := words, dateNow := dn, found := false, daySpecified := false,
          dayOffset := none, monthOffset := 0, yearOffset := 0,
          today := dowSunday0 dn, currentYear := dn.year, fromFlag := false,
          datestr := "", hasYear := false, timeQualifier := "",
          hrOffset := 0, minOffset := 0, secOffset := 0,
          hrAbs := none, minAbs := none, military := false }
      match dateLoop (words.length + 1) 0 c0 with
      | .error r => some r
      | .ok c1 => composeResult (timeLoop (c1.words.length + 1) 0 c1) default_time

/-! ## Definitions supporting the claim statements -/

/-- The context after the date and the time sweeps (the state in which the
result composition runs); `none` when the "now" branch returned early.
Mirrors the body of `extract_datetime_en`. -/
def sweepState (s : String) (dn : PyDateTime) : Option DTCtx :=
  let words := clean_string s
  let c0 : DTCtx :=
    { words := words, dateNow := dn, found := false, daySpecified := false,
      dayOffset := none, monthOffset := 0, yearOffset := 0,
      today := dowSunday0 dn, currentYear := dn.year, fromFlag := false,
      datestr := "", hasYear := false, timeQualifier := "",
      hrOffset := 0, minOffset := 0, secOffset := 0,
      hrAbs := none, minAbs := none, military := false }
  match dateLoop (words.length + 1) 0 c0 with
  | .error _ => none
  | .ok c1 => some (timeLoop (c1.words.length + 1) 0 c1)

/-- The unit contributions matched by `extract_duration_en` on a text
(`float(match) * value` over all five unit patterns on the digit-rewritten
text). -/
def durationContribs (text : String) : List QF :=
  (durationPass (convert_words_to_numbers text)).1

/-- The residual text of `extract_duration_en` before the final strip. -/
def durationResidual (text : String) : String :=
  (durationPass (convert_words_to_numbers text)).2

/-- The day-offset formula stated by the specification for a recognised
weekday name: `(weekday_list_index + 1) - reference_weekday`, `+7` if that is
negative, a further `+7` when the preceding word is "next" and `-7` when it is
"last". -/
def specWeekdayOffset (word : String) (today : Int) (wordPrev : String) : Int :=
  let base := ((daysList.indexOf word : Int) + 1) - today
  let base := if base < 0 then base + 7 else base
  if wordPrev = "next" then base + 7
  else if wordPrev = "last" then base - 7
  else base

/-- A word no extractor recognises: not an article or negation marker, not
number-bearing in any of the scan's senses, nonempty, and without internal
whitespace. -/
def plainWord (w : String) : Bool :=
  !(ARTICLES.contains w) && !(NEGATIVES.contains w) &&
  !(wordRecognized true false w) && !(w == "") &&
  w.toList.all (fun ch => !(pyIsSpace ch))

/-! ## Theorems -/

set_option maxRecDepth 100000

/-- C4: the number extractor satisfies the enumerated examples:
`extract_number("twenty two") = 22` (sum-merge), `extract_number("two
hundred") = 200` (multiply-merge), `extract_number("two and a half") = 2.5`
(fraction around "and"), `extract_number("3/4") = 0.75` (slash fraction). -/
theorem C4_number_examples :
    extractnumber_en "twenty two" = some (.i 22) ∧
    extractnumber_en "two hundred" = some (.i 200) ∧
    extractnumber_en "two and a half" = some (.f ⟨5, 2⟩) ∧
    extractnumber_en "3/4" = some (.f ⟨3, 4⟩) := by
  refine ⟨by decide, by decide, by decide, by decide⟩

/-- C8: `extract_duration("10 minute") = (600.0, "")` and
`extract_duration("set a timer for 5 minutes") = (300.0, "set a timer for")`:
each number–unit match contributes number × multiplier seconds, matched
substrings are removed, and the unmatched words are the remainder. -/
theorem C8_duration_examples :
    extract_duration_en "10 minute" = some (some ⟨600, 1⟩, "") ∧
    extract_duration_en "set a timer for 5 minutes" =
      some (some ⟨300, 1⟩, "set a timer for") := by
  refine ⟨by decide, by decide⟩

/-- C9: `extract_datetime` returns the absent result for the empty string and
for an absent reference instant. -/
theorem C9_datetime_absent_guards :
    (∀ (d : Option PyDateTime) (t : Option PyTime),
      extract_datetime_en "" d t = none) ∧
    (∀ (s : String) (t : Option PyTime), extract_datetime_en s none t = none) := by
  constructor
  · intro d t
    cases d with
    | none => rfl
    | some dn => simp [extract_datetime_en]
  · intro s t
    rfl

/-- C1 (code bug): on an input with no recognisable date or time signal the
extractor still returns a datetime (the reference instant at midnight)
together with the untouched text, because the source tests the function
object `date_found` instead of calling it; the predicate itself
(`dateFoundPred`) is false on the final sweep state, witnessing that no
signal was found. -/
theorem C1_no_signal_still_returns_datetime :
    extract_datetime_en "hello world" (some ⟨2017, 6, 27, 14, 0, 0, 0⟩) none =
      some (⟨2017, 6, 27, 0, 0, 0, 0⟩, "hello world") ∧
    (sweepState "hello world" ⟨2017, 6, 27, 14, 0, 0, 0⟩).map dateFoundPred =
      some false := by
  refine ⟨by decide, by decide⟩

/-- C3 counterexample: for the empty string `extract_duration` returns the
bare absent value, not a `(seconds, remainder)` pair. -/
theorem C3_empty_text_counterexample :
    extract_duration_en "" = none ∧
    (none : Option (Option QF × String)) ≠ some (none, "") := by
  refine ⟨rfl, by decide⟩

/-- C3 (amended): for every nonempty text `extract_duration` returns a pair
whose seconds component is the sum of all matched unit contributions and is
absent exactly when no unit pattern matched (even when the sum would be
zero), and whose remainder is the residual text with surrounding whitespace
stripped; the empty text instead yields the bare absent value. -/
theorem C3_duration_pair_shape (text : String) (h : text ≠ "") :
    ∃ secs rem, extract_duration_en text = some (secs, rem) ∧
      rem = pyStrip (durationResidual text) ∧
      (secs = none ↔ durationContribs text = []) ∧
      (durationContribs text ≠ [] →
        secs = some ((durationContribs text).foldl QF.add ⟨0, 1⟩)) := by
  unfold extract_duration_en
  rw [if_neg h]
  by_cases hp : durationContribs text = []
  · refine ⟨none, _, ?_, rfl, ?_, ?_⟩
    · simp only [durationContribs] at hp
      simp [hp, durationResidual]
    · simp [hp]
    · intro hc; exact absurd hp hc
  · refine ⟨some ((durationContribs text).foldl QF.add ⟨0, 1⟩), _, ?_, rfl, ?_, ?_⟩
    · simp only [durationContribs] at hp
      simp [hp, durationResidual, durationContribs]
    · simp [hp]
    · intro _; rfl

/-- C3 witness: the amended statement at the concrete nonempty text "z". -/
theorem C3_duration_pair_shape_witness :
    ∃ secs rem, extract_duration_en "z" = some (secs, rem) ∧
      rem = pyStrip (durationResidual "z") ∧
      (secs = none ↔ durationContribs "z" = []) ∧
      (durationContribs "z" ≠ [] →
        secs = some ((durationContribs "z").foldl QF.add ⟨0, 1⟩)) :=
  C3_duration_pair_shape "z" (by decide)

/-- C2: the bare-hour AM/PM disambiguation: with no explicit am/pm marker, no
military marking and no day specified, a parsed hour `HH` stays as-is when
the reference hour is smaller, is bumped to `HH + 12` when the reference hour
is below `HH + 12`, and otherwise the day offset is incremented; and the two
end-to-end examples: "meet me at 3" yields hour 15 at reference hour 14 and
hour 3 at reference hour 2. -/
theorem C2_bare_hour_disambiguation :
    (∀ (nowHour HH : Int) (d : Option Int),
      (nowHour < HH → ambiguousAdjust nowHour HH d = (HH, d)) ∧
      (HH ≤ nowHour → nowHour < HH + 12 → ambiguousAdjust nowHour HH d = (HH + 12, d)) ∧
      (HH + 12 ≤ nowHour → ambiguousAdjust nowHour HH d = (HH, some (d.getD 0 + 1)))) ∧
    extract_datetime_en "meet me at 3" (some ⟨2017, 6, 27, 14, 0, 0, 0⟩) none =
      some (⟨2017, 6, 27, 15, 0, 0, 0⟩, "meet me") ∧
    extract_datetime_en "meet me at 3" (some ⟨2017, 6, 27, 2, 0, 0, 0⟩) none =
      some (⟨2017, 6, 27, 3, 0, 0, 0⟩, "meet me") := by
  refine ⟨fun nowHour HH d => ⟨fun h => ?_, fun h1 h2 => ?_, fun h => ?_⟩,
          by decide, by decide⟩
  · simp [ambiguousAdjust, h]
  · have hn : ¬ nowHour < HH := not_lt.mpr h1
    simp [ambiguousAdjust, hn, h2]
  · have hn : ¬ nowHour < HH := by omega
    have hn2 : ¬ nowHour < HH + 12 := by omega
    simp [ambiguousAdjust, hn, hn2]

/-- C2 witness: the disambiguation rule applied at the reference hours of the
spec's examples (14:00 and 2:00 against a parsed hour of 3), and the
roll-forward case at reference hour 20. -/
theorem C2_bare_hour_disambiguation_witness :
    ambiguousAdjust 14 3 none = (15, none) ∧
    ambiguousAdjust 2 3 none = (3, none) ∧
    ambiguousAdjust 20 3 (some 0) = (3, some 1) :=
  ⟨(C2_bare_hour_disambiguation.1 14 3 none).2.1 (by decide) (by decide),
   (C2_bare_hour_disambiguation.1 2 3 none).1 (by decide),
   (C2_bare_hour_disambiguation.1 20 3 (some 0)).2.2 (by decide)⟩

/-- C5: in the digit branch of the time phase, a parsed hour above 24 or a
minute above 59 invalidates the whole time match: the step consumes no tokens
(`used = 0`), reports `isTime = false`, and leaves the absolute hour/minute
anchors untouched. -/
theorem C5_invalid_time_rejected (c : DTCtx) (isTime0 : Bool) (used0 : Nat)
    (strHH strMM remainder : String)
    (h : (digitHHMM c strHH strMM remainder).1 > 24 ∨
         (digitHHMM c strHH strMM remainder).2.1 > 59) :
    (digitFinish c isTime0 used0 strHH strMM remainder).2.1 = 0 ∧
    (digitFinish c isTime0 used0 strHH strMM remainder).2.2 = false ∧
    (digitFinish c isTime0 used0 strHH strMM remainder).1.hrAbs = c.hrAbs ∧
    (digitFinish c isTime0 used0 strHH strMM remainder).1.minAbs = c.minAbs := by
  unfold digitFinish
  rw [if_pos h]
  exact ⟨rfl, rfl, rfl, rfl⟩

/-- C5 witness: a concrete state parsing the military-style word "2500"
(hour 25) is rejected with no tokens consumed and no anchors set. -/
theorem C5_invalid_time_rejected_witness :
    (digitFinish
      { words := ["at", "2500"], dateNow := ⟨2017, 6, 27, 14, 0, 0, 0⟩,
        found := false, daySpecified := false, dayOffset := none,
        monthOffset := 0, yearOffset := 0, today := 2, currentYear := 2017,
        fromFlag := false, datestr := "", hasYear := false, timeQualifier := "",
        hrOffset := 0, minOffset := 0, secOffset := 0, hrAbs := none,
        minAbs := none, military := true } true 0 "25" "00" "").2.1 = 0 ∧
    (digitFinish
      { words := ["at", "2500"], dateNow := ⟨2017, 6, 27, 14, 0, 0, 0⟩,
        found := false, daySpecified := false, dayOffset := none,
        monthOffset := 0, yearOffset := 0, today := 2, currentYear := 2017,
        fromFlag := false, datestr := "", hasYear := false, timeQualifier := "",
        hrOffset := 0, minOffset := 0, secOffset := 0, hrAbs := none,
        minAbs := none, military := true } true 0 "25" "00" "").1.hrAbs = none := by
  have h := C5_invalid_time_rejected
    { words := ["at", "2500"], dateNow := ⟨2017, 6, 27, 14, 0, 0, 0⟩,
      found := false, daySpecified := false, dayOffset := none,
      monthOffset := 0, yearOffset := 0, today := 2, currentYear := 2017,
      fromFlag := false, datestr := "", hasYear := false, timeQualifier := "",
      hrOffset := 0, minOffset := 0, secOffset := 0, hrAbs := none,
      minAbs := none, military := true } true 0 "25" "00" "" (by decide)
  exact ⟨h.1, h.2.2.1⟩

/-- C10: when the single-number extraction over the current (masked) text
yields the value 0, the multi-number loop stops at once — the zero-valued
span is not included and nothing later is extracted — and consequently
`convert_words_to_numbers` leaves later number words unreplaced ("five" in
"zero foo five"). -/
theorem C10_zero_value_stops_extraction :
    (∀ (f : Nat) (text : String) (ss ord : Bool),
      (exRun f (.core (tokenize text) ss ord)).pairOf.1 = some (.i 0) →
      (exRun (f + 1) (.nums text ss ord)).numsOf = []) ∧
    extract_numbers_with_text "zero foo five" true false = [] ∧
    convert_words_to_numbers "zero foo five" = "zero foo five" := by
  refine ⟨?_, by decide, by decide⟩
  intro f text ss ord h
  simp only [exRun, h, PyNum.truthy, ExRes.numsOf]
  simp

/-- C10 witness: the loop-stopping fact instantiated on the one-word text
"zero" with one unit of fuel. -/
theorem C10_zero_value_stops_extraction_witness :
    (exRun 2 (.nums "zero" true false)).numsOf = [] :=
  C10_zero_value_stops_extraction.1 1 "zero" true false (by decide)

/-- C7 counterexample: `convert_words_to_numbers` is not idempotent — the
negative integer in "minus two" is rendered "-2", which a second pass
reparses as a float and rewrites to "-2.0"; and a text consisting only of
digit strings need not be a fixed point: "20 5" (a tens digit string followed
by another number) is rewritten to "5". -/
theorem C7_idempotence_counterexample :
    convert_words_to_numbers (convert_words_to_numbers "minus two") ≠
      convert_words_to_numbers "minus two" ∧
    convert_words_to_numbers "20 5" ≠ "20 5" := by
  refine ⟨by decide, by decide⟩

/-- The date-phase trailer does not touch the day offset. -/
theorem dateTrailer_dayOffset (c1 : DTCtx) (used : Nat) (start : Int) :
    (dateTrailer c1 used start).dayOffset = c1.dayOffset := rfl

/-- A weekday name is distinct from every other keyword the date-phase chain
tests before (and after) the weekday branch. -/
theorem daysList_facts (w : String) (h : w ∈ daysList) :
    w ≠ "now" ∧ w ≠ "2" ∧ w ∉ timeQualifiersList ∧ w ≠ "today" ∧
    w ≠ "tomorrow" ∧ w ≠ "day" ∧ w ≠ "week" ∧ w ≠ "month" ∧ w ≠ "year" ∧
    w ≠ "from" ∧ w ≠ "after" := by
  fin_cases h <;> decide

/-- C6: for a weekday name recognised in the date phase with no from-flag set
(and not pre-empted by a following year-multiple word), the resulting day
offset is `((weekday_list_index + 1) - reference_weekday)`, with 7 added if
negative, a further +7 for a preceding "next" and -7 for a preceding "last"
(`specWeekdayOffset`, the formula as the specification states it). -/
theorem C6_weekday_offset (c : DTCtx) (idx : Nat)
    (word wordPrev wordNext wordNextNext wordPrevPrev : String)
    (h1 : word ∈ daysList) (h2 : c.fromFlag = false)
    (h3 : wordNext ∉ yearMultiples) :
    ∃ c', dateStepW c idx word wordPrev wordNext wordNextNext wordPrevPrev = .ok c' ∧
      c'.dayOffset = some (specWeekdayOffset word c.today wordPrev) := by
  obtain ⟨f1, f2, f3, f4, f5, f6, f7, f8, f9, f10, f11⟩ := daysList_facts word h1
  by_cases hnx : wordPrev = "next"
  · simp only [dateStepW, f1, f2, f3, f4, f5, f6, f7, f8, f9, f10, f11, h2, h3, h1,
      weekdayOffset, specWeekdayOffset, hnx, if_true, if_false]
    simp [dateTrailer_dayOffset]
  · by_cases hls : wordPrev = "last"
    · simp only [dateStepW, f1, f2, f3, f4, f5, f6, f7, f8, f9, f10, f11, h2, h3, h1,
        weekdayOffset, specWeekdayOffset, hnx, hls, if_true, if_false]
      simp [dateTrailer_dayOffset]
    · simp only [dateStepW, f1, f2, f3, f4, f5, f6, f7, f8, f9, f10, f11, h2, h3, h1,
        weekdayOffset, specWeekdayOffset, hnx, hls, if_true, if_false]
      simp [dateTrailer_dayOffset]

/-- C6 witness: the weekday branch on "friday" with reference weekday Tuesday
(`today = 2`) and no preceding modifier. -/
theorem C6_weekday_offset_witness :
    ∃ c', dateStepW
      { words := ["friday"], dateNow := ⟨2017, 6, 27, 14, 0, 0, 0⟩,
        found := false, daySpecified := false, dayOffset := none,
        monthOffset := 0, yearOffset := 0, today := 2, currentYear := 2017,
        fromFlag := false, datestr := "", hasYear := false, timeQualifier := "",
        hrOffset := 0, minOffset := 0, secOffset := 0, hrAbs := none,
        minAbs := none, military := false } 0 "friday" "" "" "" "" = .ok c' ∧
      c'.dayOffset = some (specWeekdayOffset "friday" 2 "") :=
  C6_weekday_offset _ 0 "friday" "" "" "" "" (by decide) rfl (by decide)

theorem mk_toList (s : String) : String.mk s.toList = s := rfl

theorem toList_mk (l : List Char) : (String.mk l).toList = l := rfl

theorem plainWord_parts (w : String) (h : plainWord w = true) :
    ARTICLES.contains w = false ∧ NEGATIVES.contains w = false ∧
    wordRecognized true false w = false ∧ w ≠ "" ∧
    ∀ c ∈ w.toList, pyIsSpace c = false := by
  simp only [plainWord, Bool.and_eq_true, Bool.not_eq_true', beq_eq_false_iff_ne,
    List.all_eq_true] at h
  obtain ⟨⟨⟨⟨h1, h2⟩, h3⟩, h4⟩, h5⟩ := h
  exact ⟨h1, h2, h3, h4, fun c hc => by simpa using h5 c hc⟩

theorem toList_ne_nil (w : String) (h : w ≠ "") : w.toList ≠ [] := by
  cases w with
  | mk data =>
    cases data with
    | nil => exact absurd rfl h
    | cons c cs => simp [String.toList]

theorem splitAux_push (w : List Char) (hw : ∀ c ∈ w, pyIsSpace c = false) :
    ∀ cs cur, pySplitWsAux (w ++ cs) cur = pySplitWsAux cs (w.reverse ++ cur) := by
  induction w with
  | nil => intro cs cur; simp
  | cons c cw ih =>
    intro cs cur
    have hc : pyIsSpace c = false := hw c (by simp)
    have hcw : ∀ x ∈ cw, pyIsSpace x = false := fun x hx => hw x (by simp [hx])
    show pySplitWsAux (c :: (cw ++ cs)) cur = _
    simp only [pySplitWsAux, hc, if_false, Bool.false_eq_true]
    rw [ih hcw cs (c :: cur)]
    simp [List.append_assoc]

theorem split_join_plain (ws : List String) (h : ∀ w ∈ ws, plainWord w = true) :
    pySplitWs (pyJoinSp ws) = ws := by
  induction ws with
  | nil => rfl
  | cons w ws ih =>
    obtain ⟨_, _, _, hne, hsp⟩ := plainWord_parts w (h w (by simp))
    have hws : ∀ x ∈ ws, plainWord x = true := fun x hx => h x (by simp [hx])
    have hnil : ¬ (w.toList.reverse ++ [] = []) := by
      simpa using fun hcon => toList_ne_nil w hne (by simpa using hcon)
    cases ws with
    | nil =>
      simp only [pyJoinSp, joinSpChars, pySplitWs, toList_mk]
      have hp := splitAux_push w.toList hsp [] []
      rw [List.append_nil] at hp
      rw [hp]
      simp only [pySplitWsAux]
      rw [if_neg hnil]
      simp [mk_toList]
    | cons w2 ws2 =>
      simp only [pyJoinSp, joinSpChars, pySplitWs, toList_mk]
      rw [splitAux_push w.toList hsp]
      have hsp2 : pyIsSpace ' ' = true := by decide
      simp only [pySplitWsAux, hsp2, if_true]
      rw [if_neg hnil]
      have ih2 := ih hws
      simp only [pySplitWs, pyJoinSp, toList_mk] at ih2
      simp [mk_toList, ih2]

theorem scanLoop_plain (toks : List Token)
    (h : ∀ t ∈ toks, plainWord t.word = true) :
    ∀ prev, scanLoop true false prev ⟨[], none, none, []⟩ toks =
      ⟨[], none, none, []⟩ := by
  induction toks with
  | nil => intro prev; rfl
  | cons t ts ih =>
    intro prev
    obtain ⟨h1, h2, h3, _, _⟩ := plainWord_parts t.word (h t (by simp))
    have hts : ∀ x ∈ ts, plainWord x.word = true := fun x hx => h x (by simp [hx])
    simp only [scanLoop, h1, h2, h3]
    simp only [Bool.false_eq_true, or_self, if_false, ite_not]
    simp [ih hts]

theorem partitionAux_mem (p : Token → Bool) :
    ∀ (ts cur : List Token) (l : List Token), l ∈ partitionAux p ts cur →
      ∀ x ∈ l, x ∈ ts ∨ x ∈ cur := by
  intro ts
  induction ts with
  | nil =>
    intro cur l hl x hx
    simp only [partitionAux, List.mem_singleton] at hl
    subst hl
    exact Or.inr hx
  | cons t ts ih =>
    intro cur l hl x hx
    simp only [partitionAux] at hl
    by_cases hp : p t
    · rw [if_pos hp] at hl
      rcases List.mem_cons.mp hl with hl1 | hl'
      · subst hl1; exact Or.inr hx
      · rcases List.mem_cons.mp hl' with hl2 | hl3
        · subst hl2
          simp only [List.mem_singleton] at hx
          subst hx
          exact Or.inl (by simp)
        · rcases ih [] l hl3 x hx with hmem | hmem
          · exact Or.inl (by simp [hmem])
          · simp at hmem
    · rw [if_neg hp] at hl
      rcases ih (cur ++ [t]) l hl x hx with hmem | hmem
      · exact Or.inl (by simp [hmem])
      · rcases List.mem_append.mp hmem with hmem | hmem
        · exact Or.inr hmem
        · simp only [List.mem_singleton] at hmem
          subst hmem
          exact Or.inl (by simp)

theorem partitionList_mem (p : Token → Bool) (items : List Token)
    (l : List Token) (hl : l ∈ partitionList p items) :
    ∀ x ∈ l, x ∈ items := by
  intro x hx
  have hl' : l ∈ partitionAux p items [] := (List.mem_filter.mp hl).1
  rcases partitionAux_mem p items [] l hl' x hx with hmem | hmem
  · exact hmem
  · simp at hmem

theorem enumFrom_word : ∀ (n : Nat) (l : List String),
    ((List.enumFrom n l).map (fun p => Token.mk p.2 p.1)).map Token.word = l := by
  intro n l
  induction l generalizing n with
  | nil => rfl
  | cons w ws ih => simp [List.enumFrom, ih]

theorem tokenize_map_word (text : String) :
    (tokenize text).map Token.word = pySplitWs text := by
  simp only [tokenize, List.enum]
  exact enumFrom_word 0 (pySplitWs text)

theorem tokenize_plain (text : String)
    (h : ∀ w ∈ pySplitWs text, plainWord w = true) :
    ∀ t ∈ tokenize text, plainWord t.word = true := by
  intro t ht
  apply h
  rw [← tokenize_map_word text]
  exact List.mem_map_of_mem Token.word ht

theorem rewriteLoop_nil (toks : List Token) :
    rewriteLoop toks [] = toks.map Token.word := by
  induction toks with
  | nil => rfl
  | cons t ts ih => simp [rewriteLoop, ih]

theorem exRun_plain : ∀ f : Nat,
    (∀ toks, (∀ t ∈ toks, plainWord t.word = true) →
       exRun f (.frac toks) = .pair none []) ∧
    (∀ toks c, (∀ t ∈ toks, plainWord t.word = true) →
       exRun f (.deciM toks c) = .opt none) ∧
    (∀ toks, (∀ t ∈ toks, plainWord t.word = true) →
       exRun f (.deci toks) = .pair none []) ∧
    (∀ toks, (∀ t ∈ toks, plainWord t.word = true) →
       exRun f (.core toks true false) = .pair none []) ∧
    (∀ text, (∀ w ∈ pySplitWs text, plainWord w = true) →
       exRun f (.nums text true false) = .numsR []) := by
  intro f
  induction f with
  | zero =>
    exact ⟨fun _ _ => rfl, fun _ _ _ => rfl, fun _ _ => rfl, fun _ _ => rfl,
           fun _ _ => rfl⟩
  | succ f ih =>
    obtain ⟨ihf, ihm, ihd, ihc, ihn⟩ := ih
    have hfrac : ∀ toks, (∀ t ∈ toks, plainWord t.word = true) →
        exRun (f + 1) (.frac toks) = .pair none [] := by
      intro toks h
      simp only [exRun]
      split
      · next p0 p1 p2 heq =>
        have hp0 : ∀ t ∈ p0, plainWord t.word = true := fun t ht =>
          h t (partitionList_mem _ _ p0 (by rw [heq]; simp) t ht)
        have hwords : ∀ w ∈ p0.map (fun t => t.word), plainWord w = true := by
          intro w hw
          obtain ⟨t, ht, rfl⟩ := List.mem_map.mp hw
          exact hp0 t ht
        have htext : ∀ w ∈ pySplitWs (pyJoinSp (p0.map (fun t => t.word))),
            plainWord w = true := by
          rw [split_join_plain _ hwords]; exact hwords
        rw [ihn _ htext, ihc _ hp0]
        simp [ExRes.numsOf, ExRes.pairOf]
      · rfl
    have hdeciM : ∀ toks c, (∀ t ∈ toks, plainWord t.word = true) →
        exRun (f + 1) (.deciM toks c) = .opt none := by
      intro toks c h
      simp only [exRun]
      split
      · next p0 p1 p2 heq =>
        have hp0 : ∀ t ∈ p0, plainWord t.word = true := fun t ht =>
          h t (partitionList_mem _ _ p0 (by rw [heq]; simp) t ht)
        have hwords : ∀ w ∈ p0.map (fun t => t.word), plainWord w = true := by
          intro w hw
          obtain ⟨t, ht, rfl⟩ := List.mem_map.mp hw
          exact hp0 t ht
        have htext : ∀ w ∈ pySplitWs (pyJoinSp (p0.map (fun t => t.word))),
            plainWord w = true := by
          rw [split_join_plain _ hwords]; exact hwords
        rw [ihn _ htext, ihc _ hp0]
        simp [ExRes.numsOf, ExRes.pairOf]
      · rfl
    have hdeci : ∀ toks, (∀ t ∈ toks, plainWord t.word = true) →
        exRun (f + 1) (.deci toks) = .pair none [] := by
      intro toks h
      simp only [exRun]
      rw [ihm toks "point" h, ihm toks "dot" h]
      rfl
    have hcore : ∀ toks, (∀ t ∈ toks, plainWord t.word = true) →
        exRun (f + 1) (.core toks true false) = .pair none [] := by
      intro toks h
      simp only [exRun]
      rw [ihf toks h, ihd toks h]
      simp only [ExRes.pairOf, pvTruthy, Bool.false_eq_true, if_false]
      rw [scanLoop_plain toks h ""]
      simp
    have hnums : ∀ text, (∀ w ∈ pySplitWs text, plainWord w = true) →
        exRun (f + 1) (.nums text true false) = .numsR [] := by
      intro text h
      simp only [exRun]
      rw [ihc (tokenize text) (tokenize_plain text h)]
      simp [ExRes.pairOf]
    exact ⟨hfrac, hdeciM, hdeci, hcore, hnums⟩

/-- On an all-unrecognised text, `convert_words_to_numbers` only normalises
whitespace. -/
theorem convert_plain (t : String) (ht : ∀ w ∈ pySplitWs t, plainWord w = true) :
    convert_words_to_numbers t = pyJoinSp (pySplitWs t) := by
  unfold convert_words_to_numbers convert_words_to_numbers_f
    extract_numbers_with_text
  rw [(exRun_plain (exFuel t)).2.2.2.2 t ht]
  simp [ExRes.numsOf, sortByStart, rewriteLoop_nil, tokenize_map_word]

/-- C7 (amended): `convert_words_to_numbers` is idempotent on texts with no
recognised number content — any text whose whitespace-split words are all
unrecognised (not articles/negation markers, not number-bearing) is mapped to
its whitespace-normalised self, and a second application changes nothing.
Full idempotence fails in general (see the counterexample: a negative integer
result such as "-2" reparses as a float on the second pass), and a text of
digit strings need not be a fixed point ("20 5" rewrites to "5"). -/
theorem C7_convert_fixed_points (text : String)
    (h : ∀ w ∈ pySplitWs text, plainWord w = true) :
    convert_words_to_numbers text = pyJoinSp (pySplitWs text) ∧
    convert_words_to_numbers (convert_words_to_numbers text) =
      convert_words_to_numbers text := by
  have h2 : pySplitWs (convert_words_to_numbers text) = pySplitWs text := by
    rw [convert_plain text h, split_join_plain _ h]
  refine ⟨convert_plain text h, ?_⟩
  rw [convert_plain _ (by rw [h2]; exact h), h2, convert_plain text h]

/-- C7 witness: the amended statement on a concrete all-unrecognised text. -/
theorem C7_convert_fixed_points_witness :
    convert_words_to_numbers "totally unrelated words" =
      pyJoinSp (pySplitWs "totally unrelated words") ∧
    convert_words_to_numbers (convert_words_to_numbers "totally unrelated words") =
      convert_words_to_numbers "totally unrelated words" :=
  C7_convert_fixed_points "totally unrelated words" (by decide)
